import Mathlib

/-!
Verification of the mnstatus status-check orchestrator against its source
(`src/mnstatus/__init__.py`).  The development below is a shallow embedding:

* dates/times are modelled at day granularity as `Int` day numbers counted
  from 1970-01-01 (the proleptic Gregorian calendar, matching Python's
  `datetime`); `yearOfDay`/`daysFromCivil` implement the standard exact
  civil-calendar conversion so that `t.year` tests in the source are faithful;
* the HTTP transport is modelled as an oracle producing one of the outcome
  shapes the source distinguishes by `except` clauses;
* `while` loops over dates are encoded as fuel-indexed recursion whose
  fuel-exhaustion case is a distinguished `SearchOutcome.fuelOut` value, so a
  theorem can never mistake an unfinished loop for a genuine result.
-/

namespace MNStat

/-! ## Calendar arithmetic (day numbers, proleptic Gregorian)

`daysFromCivil y m d` is the number of days from 1970-01-01 to the civil date
y-m-d, and `yearOfDay` recovers the year of a day number.  These are the
standard exact algorithms for the proleptic Gregorian calendar and model
Python `datetime.date` / `.year` / `timedelta(days=...)` arithmetic used by
`grokMNDates`. -/

def daysFromCivil (y m d : Int) : Int :=
  let y' := y - (if m ≤ 2 then 1 else 0)
  let era := (if 0 ≤ y' then y' else y' - 399) / 400
  let yoe := y' - era * 400
  let doy := (153 * (m + (if 2 < m then -3 else 9)) + 2) / 5 + d - 1
  let doe := yoe * 365 + yoe / 4 - yoe / 100 + doy
  era * 146097 + doe - 719468

def yearOfDay (z : Int) : Int :=
  let n : Nat := (z + 719468).toNat
  let era : Nat := n / 146097
  let doe : Nat := n % 146097
  let yoe : Nat := (doe - doe / 1460 + doe / 36524 - doe / 146096) / 365
  let doy : Nat := doe - (365 * yoe + yoe / 4 - yoe / 100)
  let mp : Nat := (5 * doy + 2) / 153
  let m : Nat := if mp < 10 then mp + 3 else mp - 9
  (era : Int) * 400 + yoe + (if m ≤ 2 then 1 else 0)

example : daysFromCivil 1970 1 1 = 0 := by decide
example : daysFromCivil 2012 1 1 = 15340 := by decide
example : daysFromCivil 2026 10 12 = 20738 := by decide
example : yearOfDay 0 = 1970 := by decide
example : yearOfDay 15340 = 2012 := by decide
example : yearOfDay 15339 = 2011 := by decide
example : yearOfDay 20738 = 2026 := by decide
example : yearOfDay (daysFromCivil 2010 6 1) = 2010 := by decide

/-- `datetimeFromString("2012-01-01")`, the epoch floor of `grokMNDates`,
as a day number. -/
def epoch2012 : Int := daysFromCivil 2012 1 1

/-! ## Module constants (source lines 16-24) -/

def MAXIMUM_CONCURRENCY : Nat := 12
def MAXIMUM_INDEX_TASKS : Nat := 5
def MAXIMUM_CN_TASKS : Nat := 3
def HTTP_TIMEOUT : Nat := 20

instance {α β : Type} [DecidableEq α] [DecidableEq β] : DecidableEq (Except α β)
  | .error x, .error y =>
    if h : x = y then .isTrue (by rw [h])
    else .isFalse (by intro hc; cases hc; exact h rfl)
  | .error _, .ok _ => .isFalse (by intro h; cases h)
  | .ok _, .error _ => .isFalse (by intro h; cases h)
  | .ok x, .ok y =>
    if h : x = y then .isTrue (by rw [h])
    else .isFalse (by intro hc; cases hc; exact h rfl)

/-! ## Listing-endpoint wire model

The parsed XML document of a listObjects response (`@total`, `@count`,
`objectInfo` entries with `dateSysMetadataModified` and `identifier` -- the
only fields `_objectModifiedDates` reads). -/

structure ObjectInfoEntry where
  dateSysMetadataModified : Int
  identifier : String
deriving DecidableEq, Repr

structure ObjectListDoc where
  total : Nat
  count : Nat
  objectInfo : List ObjectInfoEntry
deriving DecidableEq, Repr

/-- The outcome of one `requests.get` against a listing endpoint, as
distinguished by `_objectModifiedDates` (source lines 255-281): the four
caught exception classes; an exception of any *other* class — e.g.
`requests.exceptions.ConnectionError` (connection refused),
`ConnectTimeout`, or a generic error — which the function does not catch
(`raises`); a response whose body either parses to an object-list document
or fails XML parsing (`body = none`); or a response that parses but is not
an object-list document, so that reading `@total` on a 200 response raises
`KeyError` at line 281 (`responseOther`). -/
inductive GetOutcome where
  | sslError (msg : String)
  | maxRetryError (msg : String)
  | readTimeout (msg : String)
  | socketTimeout (msg : String)
  | raises (msg : String)
  | response (status : Int) (body : Option ObjectListDoc)
  | responseOther (status : Int)
deriving DecidableEq, Repr

/-- Probe result dictionary built by `_objectModifiedDates`
(`total`, `count`, `objects`, `status`). -/
structure ProbeResult where
  total : Nat
  count : Nat
  objects : List (Int × String)
  status : Int
deriving DecidableEq, Repr

/-- Comparison used to model `sorted(objects, key=lambda x: x[0])`:
stable sort on the timestamp component. -/
def byDate (a b : Int × String) : Prop := a.1 ≤ b.1

instance : DecidableRel byDate := fun a b => Int.decLe a.1 b.1

instance : IsTotal (Int × String) byDate := ⟨fun a b => Int.le_total a.1 b.1⟩

instance : IsTrans (Int × String) byDate := ⟨fun _ _ _ h h' => le_trans h h'⟩

/-- Embedding of `MNStatus._objectModifiedDates` (source lines 245-303) given
the transport outcome for its one `requests.get`.  The function catches only
the four named exception classes, mapping them to statuses -1, -2, -3, -4;
any other exception is uncaught and propagates to the caller
(`Except.error`).  The body is XML-parsed *before* the status check, a parse
failure overriding the status with -3; a non-200 response keeps `total = 0`
and returns before reading the document, so a parsed non-objectList body
raises `KeyError` only on a 200 response; on success `objects` is the entry
list sorted ascending by modification date (the `count == 1` branch takes
the single entry unsorted, as the source does with the un-listed
`objectInfo` dict). -/
def objectModifiedDates (o : GetOutcome) : Except String ProbeResult :=
  match o with
  | .sslError _ => .ok ⟨0, 0, [], -1⟩
  | .maxRetryError _ => .ok ⟨0, 0, [], -2⟩
  | .readTimeout _ => .ok ⟨0, 0, [], -3⟩
  | .socketTimeout _ => .ok ⟨0, 0, [], -4⟩
  | .raises msg => .error msg
  | .response st body =>
    match body with
    | none => .ok ⟨0, 0, [], -3⟩
    | some doc =>
      if st ≠ 200 then .ok ⟨0, 0, [], st⟩
      else
        let objs := doc.objectInfo.map (fun e => (e.dateSysMetadataModified, e.identifier))
        let objects :=
          if doc.count = 1 then objs
          else if 1 < doc.count then List.insertionSort byDate objs
          else []
        .ok ⟨doc.total, doc.count, objects, 200⟩
  | .responseOther st =>
    if st ≠ 200 then .ok ⟨0, 0, [], st⟩
    else .error "KeyError"

/-! ## `_doget`: the transport call with the certificate-validation retry
(source lines 219-243) -/

/-- The outcome of one `requests.get` as `_doget` sees it: a response (with
status, reason and, on listing URLs, the parsed body the caller will read),
an `SSLError`, or any other exception.  The oracle takes the `verify` flag and
the timeout of the attempt so that a theorem can speak about which attempts
were issued. -/
inductive Attempt where
  | ok (status : Int) (reason : String) (body : Option ObjectListDoc)
  | sslError (msg : String)
  | exc (msg : String)
deriving DecidableEq, Repr

structure DogetResult where
  status : Int
  message : String
  body : Option ObjectListDoc
  /-- The `(verify, timeout)` of each `requests.get` issued, in order
  (instrumentation of the embedded call; not a field of the source tuple). -/
  calls : List (Bool × Nat)
deriving DecidableEq, Repr

/-- The `verify=False` instance of `MNStatus._doget` (source lines 219-243):
with verification already off, a further `SSLError` takes the `else` branch
and yields status -1, so this instance never recurses. -/
def dogetNoVerify (t : Bool → Nat → Attempt) (timeout : Nat) : DogetResult :=
  match t false timeout with
  | .ok st reason body =>
    ⟨st, if st ≠ 200 then reason else "No certificate validation", body,
      [(false, timeout)]⟩
  | .sslError e => ⟨-1, e, none, [(false, timeout)]⟩
  | .exc e => ⟨0, e, none, [(false, timeout)]⟩

/-- Embedding of `MNStatus._doget` (source lines 219-243), its single
self-recursion unrolled into `dogetNoVerify`.  On a response the message is
the reason for non-200, the no-validation warning when `verify` is off, else
empty.  On `SSLError` with `verify` on, the call retries itself once with
`verify=False` and — because the recursive call omits the `timeout`
argument — the *default* timeout `HTTP_TIMEOUT`; with `verify` already off
the status is -1.  Any other exception yields status 0. -/
def doget (t : Bool → Nat → Attempt) : Bool → Nat → DogetResult
  | false, timeout => dogetNoVerify t timeout
  | true, timeout =>
    match t true timeout with
    | .ok st reason body =>
      ⟨st, if st ≠ 200 then reason else "", body, [(true, timeout)]⟩
    | .sslError _ =>
      let r := dogetNoVerify t HTTP_TIMEOUT
      ⟨r.status, r.message, r.body, (true, timeout) :: r.calls⟩
    | .exc e => ⟨0, e, none, [(true, timeout)]⟩

/-- Embedding of `MNStatus.pingStatus` (source lines 357-370): a single
`_doget` with `timeout=5` and `verify` left at its default `True`; status and
message are copied from the `_doget` tuple. -/
def pingStatus (t : Bool → Nat → Attempt) : DogetResult :=
  doget t true 5

/-! ## Admission control (source lines 659-677) -/

/-- Embedding of `_checkServerLoad` (source lines 659-670) acting on the
`active_task_names` list: a `cn` task is rejected when `MAXIMUM_CN_TASKS`
are already active, an `index` task when `MAXIMUM_INDEX_TASKS` are; an
admitted task's name is appended. -/
def checkServerLoad (active : List String) (t : String) : Bool × List String :=
  if t = "cn" then
    if MAXIMUM_CN_TASKS ≤ active.count "cn" then (false, active)
    else (true, active ++ [t])
  else if t = "index" then
    if MAXIMUM_INDEX_TASKS ≤ active.count "index" then (false, active)
    else (true, active ++ [t])
  else (true, active ++ [t])

/-- Embedding of `_clearServerLoad` (source lines 672-677):
`list.remove` drops the first occurrence; the `ValueError` of a missing
name is swallowed, so clearing an absent category is a no-op. -/
def clearServerLoad (active : List String) (t : String) : List String :=
  active.erase t

/-- One admission-state operation, for stating invariants over arbitrary
interleavings of `_checkServerLoad` and `_clearServerLoad`. -/
inductive AdmOp where
  | tryAdmit (t : String)
  | release (t : String)
deriving DecidableEq, Repr

/-- Run a sequence of admission operations from a given
`active_task_names` state. -/
def runAdmission : List AdmOp → List String → List String
  | [], s => s
  | .tryAdmit t :: ops, s => runAdmission ops (checkServerLoad s t).2
  | .release t :: ops, s => runAdmission ops (clearServerLoad s t)

/-- The configured ceiling of a limited category (`cn` or `index`). -/
def categoryCeiling (t : String) : Nat :=
  if t = "cn" then MAXIMUM_CN_TASKS else MAXIMUM_INDEX_TASKS

/-! ## Node registry (source lines 530-647, the parts the claims touch) -/

/-- A registry node as `setStatusInfo` sees it: its `identifier` and its
`status` dict, which may be absent (the `KeyError` branch creates it). -/
structure NodeRec (α : Type) where
  identifier : String
  status : Option (List (String × α))
deriving DecidableEq, Repr

/-- Python dict assignment `m[task] = info` on an association list with
unique keys: replace in place, or append when the key is new. -/
def dictSet {α : Type} (m : List (String × α)) (k : String) (v : α) :
    List (String × α) :=
  match m with
  | [] => [(k, v)]
  | (k', v') :: rest =>
    if k' = k then (k, v) :: rest else (k', v') :: dictSet rest k v

/-- Embedding of `NodeList.setStatusInfo` (source lines 617-627): walk the
node list in order; at the first node whose `identifier` matches, store the
info under `task` in its `status` dict (creating the dict on `KeyError`) and
return `True`; if no node matches, return `False` with the list unchanged. -/
def setStatusInfo {α : Type} (nodes : List (NodeRec α)) (node_id task : String)
    (info : α) : Bool × List (NodeRec α) :=
  match nodes with
  | [] => (false, [])
  | n :: rest =>
    if n.identifier = node_id then
      let m := match n.status with | some m => m | none => []
      (true, { n with status := some (dictSet m task info) } :: rest)
    else
      let r := setStatusInfo rest node_id task info
      (r.1, n :: r.2)

/-! ## Completion drain of the scheduler loop (source lines 711-725) -/

/-- What `future.result()` yields for one completed worker: the
`(node_id, task, result)` triple returned by `runCheck`, or the exception the
worker raised (re-raised by `future.result()`). -/
inductive WorkerOutcome (α : Type) where
  | ok (node_id task : String) (info : α)
  | raised (e : String)
deriving DecidableEq, Repr

/-- Embedding of the completion-drain loop
`for future in as_completed(tasks): result = future.result(); ...`
(source lines 711-717), processing completed workers in completion order.
For a normal result the category slot is cleared and the result merged into
the registry.  `future.result()` re-raises a worker's exception, and the
surrounding `try` catches only `concurrent.futures.TimeoutError`, so a raised
exception aborts the drain: the `error` value carries the exception text and
the admission/registry state at the moment of the abort. -/
def drainCompleted {α : Type} :
    List (WorkerOutcome α) → List String → List (NodeRec α) →
      Except (String × List String × List (NodeRec α))
        (List String × List (NodeRec α))
  | [], active, nodes => .ok (active, nodes)
  | .raised e :: _, active, nodes => .error (e, active, nodes)
  | .ok nid task info :: rest, active, nodes =>
    drainCompleted rest (clearServerLoad active task)
      (setStatusInfo nodes nid task info).2

/-- The admission/registry state after draining a list of *successful*
worker results (used to describe where an abort leaves the run). -/
def drainState {α : Type} :
    List (String × String × α) → List String → List (NodeRec α) →
      List String × List (NodeRec α)
  | [], active, nodes => (active, nodes)
  | (nid, task, info) :: rest, active, nodes =>
    drainState rest (clearServerLoad active task)
      (setStatusInfo nodes nid task info).2

/-! ## `grokMNDates`: the adaptive date-range search (source lines 305-355)

Both `while` loops are encoded as fuel-indexed recursion.  Each run returns
the list of probes actually issued (window bounds and the probe's result) and
a `SearchOutcome`; `fuelOut` marks an exhausted iteration bound (an encoding
artifact, distinguished so it can never be confused with the source's
terminating outcomes), `crash` marks the `IndexError` the source would
raise when a window reports `total > 0` with an empty record list, and
`raised` marks an exception propagating out of `_objectModifiedDates`
itself (an uncaught exception class, or the `KeyError` on a 200
non-objectList body). -/

/-- One issued probe: the `fromDate`/`toDate` bounds passed to
`_objectModifiedDates` and the result it returned. -/
structure ProbeStep where
  t0 : Option Int
  t1 : Option Int
  res : ProbeResult
deriving DecidableEq, Repr

inductive SearchOutcome where
  | fuelOut
  | notFound
  | crash
  | raised (e : String)
  | found (ts : Int) (pid : String)
deriving DecidableEq, Repr

/-- `results["earliest"], results["earliest_pid"] = objects[0]` — the head
of the hit window's record list, `IndexError` (`crash`) when empty. -/
def hitFirst (olist : ProbeResult) : SearchOutcome :=
  match olist.objects.head? with
  | some o => .found o.1 o.2
  | none => .crash

/-- `results["latest"], results["latest_pid"] = objects[-1]` — the last
entry of the hit window's record list, `IndexError` (`crash`) when empty. -/
def hitLast (olist : ProbeResult) : SearchOutcome :=
  match olist.objects.getLast? with
  | some o => .found o.1 o.2
  | none => .crash

/-- Embedding of the "oldest" loop of `grokMNDates` (source lines 314-331):
starting from `d_offs = 0`, probe the window `(None, y_start + d_offs)` —
note the *missing lower bound* — while `t1.year <= y_max`; a hit takes
`objects[0]` (the first of the ascending-sorted records); a miss adds 180
days to `d_offs`. -/
def oldestLoop (g : Option Int → Option Int → GetOutcome) (yMax : Int)
    (dOffs : Nat) : Nat → List ProbeStep × SearchOutcome
  | 0 => ([], .fuelOut)
  | fuel + 1 =>
    let t1 : Int := epoch2012 + dOffs
    if yMax < yearOfDay t1 then ([], .notFound)
    else
      match objectModifiedDates (g none (some t1)) with
      | .error e => ([], .raised e)
      | .ok olist =>
        if 0 < olist.total then
          ([⟨none, some t1, olist⟩], hitFirst olist)
        else
          let run := oldestLoop g yMax (dOffs + 180) fuel
          (⟨none, some t1, olist⟩ :: run.1, run.2)

/-- Embedding of the "newest" loop of `grokMNDates` (source lines 332-355):
starting from `d_offs = d_inc = 2`, probe the window
`(now - d_offs, now)` while `t0.year >= 2012`; a hit takes `objects[-1]`
(the last of the ascending-sorted records); a miss doubles `d_inc`, caps the
*increment* at 365 days, and adds it to `d_offs`. -/
def newestLoop (g : Option Int → Option Int → GetOutcome) (now : Int)
    (dOffs dInc : Nat) : Nat → List ProbeStep × SearchOutcome
  | 0 => ([], .fuelOut)
  | fuel + 1 =>
    let t0 : Int := now - dOffs
    if yearOfDay t0 < 2012 then ([], .notFound)
    else
      match objectModifiedDates (g (some t0) (some now)) with
      | .error e => ([], .raised e)
      | .ok olist =>
        if 0 < olist.total then
          ([⟨some t0, some now, olist⟩], hitLast olist)
        else
          let x := 2 * dInc
          let dInc' := if 365 < x then 365 else x
          let run := newestLoop g now (dOffs + dInc') dInc' fuel
          (⟨some t0, some now, olist⟩ :: run.1, run.2)

/-- The oldest-boundary search as `grokMNDates` starts it:
`d_offs = 0`, `y_max = dtnow().year`. -/
def oldestSearch (g : Option Int → Option Int → GetOutcome) (now : Int)
    (fuel : Nat) : List ProbeStep × SearchOutcome :=
  oldestLoop g (yearOfDay now) 0 fuel

/-- The newest-boundary search as `grokMNDates` starts it:
`d_offs = d_inc = 2`, `t1 = dtnow()`. -/
def newestSearch (g : Option Int → Option Int → GetOutcome) (now : Int)
    (fuel : Nat) : List ProbeStep × SearchOutcome :=
  newestLoop g now 2 2 fuel

/-- Embedding of `grokMNDates` (source lines 305-355): run the oldest loop,
then the newest loop, against the same probe transport. -/
def grokMNDates (g : Option Int → Option Int → GetOutcome) (now : Int)
    (fuel : Nat) : SearchOutcome × SearchOutcome :=
  ((oldestSearch g now fuel).2, (newestSearch g now fuel).2)

/-! Reference sequences describing the newest-loop window widths: the
increment `newestInc` starts at 2 days, doubles on each miss and is capped at
365 days; the width `newestWidth` starts at 2 days and adds the increment on
each miss. -/

def newestInc : Nat → Nat
  | 0 => 2
  | k + 1 =>
    let x := 2 * newestInc k
    if 365 < x then 365 else x

def newestWidth : Nat → Nat
  | 0 => 2
  | k + 1 => newestWidth k + newestInc (k + 1)

example : (List.range 10).map newestWidth = [2, 6, 14, 30, 62, 126, 254, 510, 875, 1240] := by decide

/-- The window width of a probe step relative to the probe's upper bound
`now` (0 for a step with no lower bound). -/
def stepWidth (now : Int) (s : ProbeStep) : Int :=
  match s.t0 with
  | some a => now - a
  | none => 0

/-! ## The mn/cn object-info check (source lines 372-444)

`objectInfoFromMN` (and `objectInfoFromCN`, which is identical except for the
URL and the `nodeId` filter threaded into `xparams`) issues one `_doget` for
the total count and then runs `grokMNDates`.  The `xmltodict.parse` of the
count response is *not* guarded — a parse failure there, like an exception
raised inside a probe or the `IndexError`/fuel cases inside `grokMNDates`,
surfaces as `Except.error` (the oldest search runs first, so its exception
takes precedence over the newest search's). -/

structure MNCheckResult where
  status : Int
  message : String
  count : Option Nat
  earliest : Option (Int × String)
  latest : Option (Int × String)
deriving DecidableEq, Repr

def outcomeToOption : SearchOutcome → Option (Int × String)
  | .found ts pid => some (ts, pid)
  | _ => none

/-- Embedding of `objectInfoFromMN` (source lines 372-406).  `t` answers the
initial count `_doget`; `g` answers the date probes; `now` is the check time;
`timeout` is `self.timeout`.  A non-200 count query returns early with
`count = None`; otherwise `count` is the document's `@total` and the
`results.update(date_range)` merge fills `earliest`/`latest` only for a
`found` search outcome. -/
def objectInfoFromMN (t : Bool → Nat → Attempt)
    (g : Option Int → Option Int → GetOutcome) (now : Int)
    (timeout : Nat) (fuel : Nat) : Except String MNCheckResult :=
  let r := doget t true timeout
  if r.status ≠ 200 then
    .ok ⟨r.status, r.message, none, none, none⟩
  else
    match r.body with
    | none => .error "xmltodict.parse raised"
    | some doc =>
      match (oldestSearch g now fuel).2, (newestSearch g now fuel).2 with
      | .raised e, _ => .error e
      | .crash, _ => .error "IndexError"
      | .fuelOut, _ => .error "iteration bound exhausted"
      | _, .raised e => .error e
      | _, .crash => .error "IndexError"
      | _, .fuelOut => .error "iteration bound exhausted"
      | oOut, nOut =>
        .ok ⟨200, "", some doc.total, outcomeToOption oOut, outcomeToOption nOut⟩

/-! ## Consistent listing backend

A fixed set of objects `L` (modification day, identifier) answers every
query: a window query returns exactly the objects whose date lies in
`[fromDate, toDate)` (a missing bound is unbounded), with `@total = @count`
both the match count, and the count query reports `@total = L.length`. -/

def inWindow (t0 t1 : Option Int) (d : Int) : Bool :=
  (match t0 with | some a => a ≤ d | none => true) &&
  (match t1 with | some b => d < b | none => true)

def listingOutcome (L : List (Int × String)) (t0 t1 : Option Int) : GetOutcome :=
  let ms := L.filter (fun o => inWindow t0 t1 o.1)
  .response 200 (some ⟨ms.length, ms.length,
    ms.map (fun o => ⟨o.1, o.2⟩)⟩)

def listingAttempt (L : List (Int × String)) : Bool → Nat → Attempt :=
  fun _ _ => .ok 200 "OK"
    (some ⟨L.length, min 2 L.length, (L.take 2).map (fun o => ⟨o.1, o.2⟩)⟩)

/-- The mn check run against a consistent listing backend `L` at check
time `now`. -/
def mnCheckOnListing (L : List (Int × String)) (now : Int) (fuel : Nat) :
    Except String MNCheckResult :=
  objectInfoFromMN (listingAttempt L) (listingOutcome L) now HTTP_TIMEOUT fuel

/-- The always-empty probe transport (a well-formed 200 response with zero
matches for every window). -/
def gZero : Option Int → Option Int → GetOutcome :=
  fun _ _ => .response 200 (some ⟨0, 0, []⟩)

/-! ## The index check (source lines 446-508) -/

structure SolrDoc where
  id : String
  series_id : Option String
  dateModified : String
  dateUploaded : String
deriving DecidableEq, Repr

structure SolrBody where
  numFound : Nat
  docs : List SolrDoc
deriving DecidableEq, Repr

/-- One Solr query's response: HTTP status, reason, and the body — either the
parsed JSON or the text of the `JSONDecodeError`. -/
structure SolrOutcome where
  status : Int
  reason : String
  body : Except String SolrBody
deriving DecidableEq, Repr

structure IndexCheckResult where
  status : Int
  message : String
  count : Nat
  earliest_pid : Option String
  earliest_sid : Option String
  earliest : Option String
  earliest_uploaded : Option String
  latest_pid : Option String
  latest_sid : Option String
  latest : Option String
  latest_uploaded : Option String
deriving DecidableEq, Repr

def emptyIndexResult : IndexCheckResult :=
  ⟨0, "", 0, none, none, none, none, none, none, none, none⟩

/-- Embedding of `objectInfoFromIndex` (source lines 446-508): query sorted
ascending, then descending.  A `JSONDecodeError` on either response returns
status -5 with the raw error as message (after the first query this loses the
earliest fields; after the second it *keeps* them).  The earliest (resp.
latest) fields are read off `docs[0]` of the ascending (resp. descending)
response whenever `count > 0`; `docs[0]` of an empty doc list is the
`IndexError` the source would raise.  The final status/message are the
*second* response's status code and reason. -/
def objectInfoFromIndex (q1 q2 : SolrOutcome) : Except String IndexCheckResult :=
  match q1.body with
  | .error e => .ok { emptyIndexResult with status := -5, message := e }
  | .ok b1 =>
    let count := b1.numFound
    if 0 < count then
      match b1.docs.head? with
      | none => .error "IndexError"
      | some d1 =>
        let withEarliest : IndexCheckResult :=
          { emptyIndexResult with
            count := count
            earliest_pid := some d1.id
            earliest_sid := d1.series_id
            earliest := some d1.dateModified
            earliest_uploaded := some d1.dateUploaded }
        match q2.body with
        | .error e => .ok { withEarliest with status := -5, message := e }
        | .ok b2 =>
          match b2.docs.head? with
          | none => .error "IndexError"
          | some d2 =>
            .ok { withEarliest with
              status := q2.status
              message := q2.reason
              latest_pid := some d2.id
              latest_sid := d2.series_id
              latest := some d2.dateModified
              latest_uploaded := some d2.dateUploaded }
    else
      match q2.body with
      | .error e => .ok { emptyIndexResult with status := -5, message := e }
      | .ok _ =>
        .ok { emptyIndexResult with status := q2.status, message := q2.reason }

/-! ## General list helpers -/

lemma getLast?_mem_of_eq {α : Type} :
    ∀ (l : List α) (a : α), l.getLast? = some a → a ∈ l
  | [], _, h => by cases h
  | [x], a, h => by
    simp only [List.getLast?_singleton, Option.some.injEq] at h
    simp [h]
  | x :: y :: l, a, h => by
    rw [List.getLast?_cons_cons] at h
    exact List.mem_cons_of_mem x (getLast?_mem_of_eq (y :: l) a h)

lemma head?_mem_of_eq {α : Type} :
    ∀ (l : List α) (a : α), l.head? = some a → a ∈ l
  | [], _, h => by cases h
  | x :: l, a, h => by
    simp only [List.head?_cons, Option.some.injEq] at h
    simp [h]

/-- In a list sorted by `r`, every element is the last one or relates to it. -/
lemma sorted_rel_getLast {α : Type} {r : α → α → Prop} :
    ∀ (l : List α), List.Sorted r l → ∀ m, l.getLast? = some m →
      ∀ x ∈ l, x = m ∨ r x m
  | [], _, _, hm => by cases hm
  | [a], _, m, hm => by
    simp only [List.getLast?_singleton, Option.some.injEq] at hm
    intro x hx
    simp only [List.mem_singleton] at hx
    exact Or.inl (hx.trans hm)
  | a :: b :: l, hs, m, hm => by
    rw [List.getLast?_cons_cons] at hm
    intro x hx
    rcases List.mem_cons.mp hx with rfl | hx
    · exact Or.inr (List.rel_of_sorted_cons hs m (getLast?_mem_of_eq _ _ hm))
    · exact sorted_rel_getLast (b :: l) hs.of_cons m hm x hx

/-- In a list sorted by `r`, the head is the first element or relates
to every element. -/
lemma sorted_head_rel {α : Type} {r : α → α → Prop} :
    ∀ (l : List α), List.Sorted r l → ∀ m, l.head? = some m →
      ∀ x ∈ l, x = m ∨ r m x := by
  intro l hs m hm x hx
  cases l with
  | nil => cases hm
  | cons a l =>
    simp only [List.head?_cons, Option.some.injEq] at hm
    subst hm
    rcases List.mem_cons.mp hx with rfl | hx
    · exact Or.inl rfl
    · exact Or.inr (List.rel_of_sorted_cons hs x hx)

/-! ## C6 / C9: the certificate-validation retry of `_doget` -/

/-- C6: a certificate-validation failure on a GET issued with verification
enabled triggers exactly one retry with verification disabled (two transport
calls in total, the second with `verify=False`); if the retry returns
HTTP 200 the result has status 200 and the "No certificate validation"
message, a warning rather than a failure code; a certificate failure on the
retry is surfaced as status -1 carrying the error text, with no further
retry. -/
theorem doget_cert_retry_c6 (t : Bool → Nat → Attempt) (timeout : Nat)
    (e : String) (h : t true timeout = .sslError e) :
    (doget t true timeout).calls = [(true, timeout), (false, HTTP_TIMEOUT)] ∧
    (∀ reason body, t false HTTP_TIMEOUT = .ok 200 reason body →
      (doget t true timeout).status = 200 ∧
      (doget t true timeout).message = "No certificate validation") ∧
    (∀ e2, t false HTTP_TIMEOUT = .sslError e2 →
      (doget t true timeout).status = -1 ∧
      (doget t true timeout).message = e2) := by
  refine ⟨?_, ?_, ?_⟩
  · cases h2 : t false HTTP_TIMEOUT with
    | ok st reason body => simp [doget, dogetNoVerify, h, h2]
    | sslError e2 => simp [doget, dogetNoVerify, h, h2]
    | exc e2 => simp [doget, dogetNoVerify, h, h2]
  · intro reason body h2
    simp [doget, dogetNoVerify, h, h2]
  · intro e2 h2
    simp [doget, dogetNoVerify, h, h2]

/-- Witness for C6: a concrete transport failing certificate validation on
the verified attempt and succeeding without verification. -/
theorem doget_cert_retry_c6_witness :
    (doget (fun v _ => if v then .sslError "cert invalid" else .ok 200 "OK" none)
        true 5).calls = [(true, 5), (false, HTTP_TIMEOUT)] ∧
    (doget (fun v _ => if v then .sslError "cert invalid" else .ok 200 "OK" none)
        true 5).status = 200 ∧
    (doget (fun v _ => if v then .sslError "cert invalid" else .ok 200 "OK" none)
        true 5).message = "No certificate validation" := by
  have h := doget_cert_retry_c6
    (fun v _ => if v then .sslError "cert invalid" else .ok 200 "OK" none)
    5 "cert invalid" rfl
  exact ⟨h.1, (h.2.1 "OK" none rfl).1, (h.2.1 "OK" none rfl).2⟩

/-- C9: when the ping check's verified GET (issued with the caller timeout
of 5 seconds) fails certificate validation, the verification-disabled retry
is issued with the module default `HTTP_TIMEOUT = 20`, not the ping check's
5-second timeout. -/
theorem ping_retry_timeout_c9 (t : Bool → Nat → Attempt) (e : String)
    (h : t true 5 = .sslError e) :
    (pingStatus t).calls = [(true, 5), (false, HTTP_TIMEOUT)] ∧
    HTTP_TIMEOUT = 20 ∧ (5 : Nat) ≠ HTTP_TIMEOUT := by
  refine ⟨?_, rfl, by decide⟩
  have hc := (doget_cert_retry_c6 t 5 e h).1
  exact hc

/-- Witness for C9 at a concrete transport. -/
theorem ping_retry_timeout_c9_witness :
    (pingStatus (fun v _ => if v then .sslError "bad cert" else .ok 200 "OK" none)).calls
      = [(true, 5), (false, HTTP_TIMEOUT)] ∧
    HTTP_TIMEOUT = 20 ∧ (5 : Nat) ≠ HTTP_TIMEOUT :=
  ping_retry_timeout_c9
    (fun v _ => if v then .sslError "bad cert" else .ok 200 "OK" none)
    "bad cert" rfl

/-! ## C8: failure classification codes -/

/-- Counterexample for C8: the claim says a parse failure gets a negative
sentinel distinct from all transport codes and that distinct causes never
share a code, but an XML parse failure in `_objectModifiedDates` is assigned
status -3, the same code as a read timeout (and the probe result carries no
message field at all). -/
theorem failure_codes_counterexample_c8 :
    objectModifiedDates (.readTimeout "read timed out") = .ok ⟨0, 0, [], -3⟩ ∧
    objectModifiedDates (.response 200 none) = .ok ⟨0, 0, [], -3⟩ :=
  ⟨rfl, rfl⟩

/-- C8 (amended): the caught transport failure classes map to distinct
negative codes (SSL -1, retry-exhausted -2, read-timeout -3, socket-timeout
-4); the JSON parse failure of the index check maps to -5 with the raw error
retained in the message, but the XML parse failure of the listing probe
reuses -3 — colliding with the read-timeout code — and retains no message
(the probe result dictionary has no message field). -/
theorem failure_codes_c8 :
    (∀ m, objectModifiedDates (.sslError m) = .ok ⟨0, 0, [], -1⟩) ∧
    (∀ m, objectModifiedDates (.maxRetryError m) = .ok ⟨0, 0, [], -2⟩) ∧
    (∀ m, objectModifiedDates (.readTimeout m) = .ok ⟨0, 0, [], -3⟩) ∧
    (∀ m, objectModifiedDates (.socketTimeout m) = .ok ⟨0, 0, [], -4⟩) ∧
    (∀ st, objectModifiedDates (.response st none) = .ok ⟨0, 0, [], -3⟩) ∧
    (∀ q1 q2 e, q1.body = .error e →
      ∃ res, objectInfoFromIndex q1 q2 = .ok res ∧
        res.status = -5 ∧ res.message = e) := by
  refine ⟨fun _ => rfl, fun _ => rfl, fun _ => rfl, fun _ => rfl, fun _ => rfl, ?_⟩
  intro q1 q2 e h
  exact ⟨{ emptyIndexResult with status := -5, message := e },
    by simp [objectInfoFromIndex, h], rfl, rfl⟩

/-- Witness for C8 at a concrete JSON-decode failure. -/
theorem failure_codes_c8_witness :
    ∃ res, objectInfoFromIndex ⟨200, "OK", .error "Expecting value"⟩
        ⟨200, "OK", .ok ⟨0, []⟩⟩ = .ok res ∧
      res.status = -5 ∧ res.message = "Expecting value" :=
  failure_codes_c8.2.2.2.2.2 ⟨200, "OK", .error "Expecting value"⟩
    ⟨200, "OK", .ok ⟨0, []⟩⟩ "Expecting value" rfl

/-! ## C5: a worker's exception and the completion drain -/

/-- Counterexample for C5: with one raised worker followed by one successful
worker, the completion drain aborts with the exception (`Except.error`) — the
raising worker's category `cn` is still in `active_task_names`, no result was
merged for it, and the remaining completed worker is never drained, so node
`A` keeps no `ping` status. -/
theorem drain_abort_counterexample_c5 :
    drainCompleted
        [WorkerOutcome.raised "boom", WorkerOutcome.ok "A" "ping" (7 : Nat)]
        ["cn"] [⟨"A", none⟩]
      = .error ("boom", ["cn"], [⟨"A", none⟩]) ∧
    ∀ x, drainCompleted
        [WorkerOutcome.raised "boom", WorkerOutcome.ok "A" "ping" (7 : Nat)]
        ["cn"] [⟨"A", none⟩] ≠ .ok x := by
  refine ⟨rfl, fun x h => ?_⟩
  rw [show drainCompleted
      [WorkerOutcome.raised "boom", WorkerOutcome.ok "A" "ping" (7 : Nat)]
      ["cn"] [⟨"A", none⟩] = .error ("boom", ["cn"], [⟨"A", none⟩]) from rfl] at h
  cases h

/-- C5 (amended): a worker raising an unexpected error aborts the scheduler
run — `future.result()` re-raises it and only `TimeoutError` is caught.  The
drain processes the successful completions preceding it (releasing their
slots and merging their results) and then propagates the exception, leaving
exactly that intermediate state: the failing worker's category is not
released, no result is written for it, and the completions after it are never
drained. -/
theorem drain_abort_c5 {α : Type} (pre : List (String × String × α))
    (e : String) (post : List (WorkerOutcome α)) (active : List String)
    (nodes : List (NodeRec α)) :
    drainCompleted
        ((pre.map fun x => WorkerOutcome.ok x.1 x.2.1 x.2.2)
          ++ WorkerOutcome.raised e :: post)
        active nodes
      = .error (e, drainState pre active nodes) := by
  induction pre generalizing active nodes with
  | nil => rfl
  | cons p rest ih =>
    simp only [List.map_cons, List.cons_append, drainCompleted, drainState]
    exact ih _ _

/-! ## C10: `setStatusInfo` frame property -/

/-- Python dict lookup `m[k]` on the association-list model (observation
function used to state the frame property). -/
def dictGet {α : Type} (m : List (String × α)) (k : String) : Option α :=
  match m with
  | [] => none
  | (k', v) :: rest => if k' = k then some v else dictGet rest k

lemma dictSet_dictGet_self {α : Type} :
    ∀ (m : List (String × α)) (k : String) (v : α),
      dictGet (dictSet m k v) k = some v
  | [], k, v => by simp [dictSet, dictGet]
  | (k', v') :: rest, k, v => by
    by_cases h : k' = k
    · simp [dictSet, dictGet, h]
    · rw [show dictSet ((k', v') :: rest) k v = (k', v') :: dictSet rest k v from
        by simp [dictSet, h]]
      rw [show dictGet ((k', v') :: dictSet rest k v) k = dictGet (dictSet rest k v) k from
        by simp [dictGet, h]]
      exact dictSet_dictGet_self rest k v

lemma dictSet_dictGet_other {α : Type} :
    ∀ (m : List (String × α)) (k : String) (v : α) (t : String), t ≠ k →
      dictGet (dictSet m k v) t = dictGet m t
  | [], k, v, t, ht => by
    simp [dictSet, dictGet]
    exact fun hc => absurd hc.symm ht
  | (k', v') :: rest, k, v, t, ht => by
    by_cases h : k' = k
    · subst h
      rw [show dictSet ((k', v') :: rest) k' v = (k', v) :: rest from
        by simp [dictSet]]
      simp only [dictGet]
      rw [if_neg (fun hc => ht hc.symm), if_neg (fun hc => ht hc.symm)]
    · rw [show dictSet ((k', v') :: rest) k v = (k', v') :: dictSet rest k v from
        by simp [dictSet, h]]
      simp only [dictGet]
      by_cases h2 : k' = t
      · rw [if_pos h2, if_pos h2]
      · rw [if_neg h2, if_neg h2]
        exact dictSet_dictGet_other rest k v t ht

/-- C10: recording a result for `(node_id, task)`: when some node matches,
the *first* matching node's status dict gains `task ↦ info` (the dict being
created if absent), every other key of that dict and every other node are
untouched, and the call returns `True`; when no node matches, the call
returns `False` and the registry is unchanged.  The `task ↦ info` /
other-key facts are stated through the `dictSet` lookup lemmas bundled in
the last two conjuncts. -/
theorem setStatusInfo_c10 {α : Type} :
    (∀ (pre : List (NodeRec α)) (n : NodeRec α) (post : List (NodeRec α))
        (node_id task : String) (info : α),
      (∀ m ∈ pre, m.identifier ≠ node_id) → n.identifier = node_id →
      setStatusInfo (pre ++ n :: post) node_id task info =
        (true, pre ++
          { n with status := some (dictSet (n.status.getD []) task info) } :: post)) ∧
    (∀ (nodes : List (NodeRec α)) (node_id task : String) (info : α),
      (∀ m ∈ nodes, m.identifier ≠ node_id) →
      setStatusInfo nodes node_id task info = (false, nodes)) ∧
    (∀ (m : List (String × α)) (task : String) (info : α),
      dictGet (dictSet m task info) task = some info) ∧
    (∀ (m : List (String × α)) (task : String) (info : α) (t : String),
      t ≠ task → dictGet (dictSet m task info) t = dictGet m t) := by
  refine ⟨?_, ?_, dictSet_dictGet_self, dictSet_dictGet_other⟩
  · intro pre n post node_id task info hpre hn
    induction pre with
    | nil =>
      simp only [List.nil_append, setStatusInfo]
      rw [if_pos hn]
      cases hs : n.status <;> simp [hs]
    | cons p rest ih =>
      have hp : p.identifier ≠ node_id := hpre p (by simp)
      have ih' := ih (fun m hm => hpre m (by simp [hm]))
      simp only [List.cons_append, setStatusInfo, List.append_eq]
      rw [if_neg hp]
      simp only [List.append_eq] at ih'
      rw [ih']
  · intro nodes node_id task info hmiss
    induction nodes with
    | nil => rfl
    | cons p rest ih =>
      have hp : p.identifier ≠ node_id := hmiss p (by simp)
      have ih' := ih (fun m hm => hmiss m (by simp [hm]))
      simp only [setStatusInfo]
      rw [if_neg hp]
      rw [ih']

/-- Witness for C10: a concrete registry of two nodes, updating the second
and then attempting an unknown id. -/
theorem setStatusInfo_c10_witness :
    setStatusInfo [⟨"A", none⟩, ⟨"B", some [("ping", 1)]⟩] "B" "mn" (2 : Nat) =
      (true, [⟨"A", none⟩, ⟨"B", some [("ping", 1), ("mn", 2)]⟩]) ∧
    setStatusInfo [⟨"A", none⟩, ⟨"B", some [("ping", 1)]⟩] "C" "mn" (2 : Nat) =
      (false, [⟨"A", none⟩, ⟨"B", some [("ping", 1)]⟩]) := by
  constructor
  · have h := (setStatusInfo_c10.1) [⟨"A", none⟩] ⟨"B", some [("ping", 1)]⟩ []
      "B" "mn" (2 : Nat) (by decide) rfl
    simpa using h
  · have h := (setStatusInfo_c10.2.1) [⟨"A", none⟩, ⟨"B", some [("ping", 1)]⟩]
      "C" "mn" (2 : Nat) (by decide)
    simpa using h

/-! ## C1: admission ceilings over arbitrary interleavings -/

lemma checkServerLoad_cn (s : List String) :
    checkServerLoad s "cn" =
      if MAXIMUM_CN_TASKS ≤ s.count "cn" then (false, s)
      else (true, s ++ ["cn"]) := by
  unfold checkServerLoad
  rw [if_pos rfl]

lemma checkServerLoad_index (s : List String) :
    checkServerLoad s "index" =
      if MAXIMUM_INDEX_TASKS ≤ s.count "index" then (false, s)
      else (true, s ++ ["index"]) := by
  unfold checkServerLoad
  rw [if_neg (by decide), if_pos rfl]

lemma count_append_single_other (s : List String) (t c : String) (h : t ≠ c) :
    (s ++ [t]).count c = s.count c := by
  rw [List.count_append]
  have h1 : List.count c [t] = 0 := by
    simp [List.count_singleton']
    exact fun hc2 => absurd hc2 h
  omega

lemma count_checkServerLoad_le (s : List String) (t c : String) (limit : Nat)
    (hceil : categoryCeiling c = limit) (hc : c = "cn" ∨ c = "index")
    (h : s.count c ≤ limit) : ((checkServerLoad s t).2).count c ≤ limit := by
  by_cases hct : t = c
  · subst hct
    rcases hc with rfl | rfl
    · rw [checkServerLoad_cn]
      rcases Nat.lt_or_ge (s.count "cn") MAXIMUM_CN_TASKS with hlt | hge
      · rw [if_neg (Nat.not_le.mpr hlt)]
        simp only [List.count_append]
        have h1 : List.count "cn" ["cn"] = 1 := by decide
        have hlim : limit = MAXIMUM_CN_TASKS := hceil.symm.trans rfl
        omega
      · rw [if_pos hge]
        exact h
    · rw [checkServerLoad_index]
      rcases Nat.lt_or_ge (s.count "index") MAXIMUM_INDEX_TASKS with hlt | hge
      · rw [if_neg (Nat.not_le.mpr hlt)]
        simp only [List.count_append]
        have h1 : List.count "index" ["index"] = 1 := by decide
        have hlim : limit = MAXIMUM_INDEX_TASKS := hceil.symm.trans rfl
        omega
      · rw [if_pos hge]
        exact h
  · unfold checkServerLoad
    split
    · split
      · exact h
      · rw [count_append_single_other s t c hct]; exact h
    · split
      · split
        · exact h
        · rw [count_append_single_other s t c hct]; exact h
      · rw [count_append_single_other s t c hct]; exact h

lemma count_clearServerLoad_le (s : List String) (t c : String) (limit : Nat)
    (h : s.count c ≤ limit) : (clearServerLoad s t).count c ≤ limit :=
  le_trans (List.Sublist.count_le (List.erase_sublist t s) c) h

lemma runAdmission_count_le (c : String) (limit : Nat)
    (hceil : categoryCeiling c = limit) (hc : c = "cn" ∨ c = "index") :
    ∀ (ops : List AdmOp) (s : List String), s.count c ≤ limit →
      (runAdmission ops s).count c ≤ limit := by
  intro ops
  induction ops with
  | nil => intro s h; exact h
  | cons op rest ih =>
    intro s h
    cases op with
    | tryAdmit t =>
      exact ih _ (count_checkServerLoad_le s t c limit hceil hc h)
    | release t =>
      exact ih _ (count_clearServerLoad_le s t c limit h)

/-- C1: over every interleaving of `_checkServerLoad` / `_clearServerLoad`
operations started from the empty `active_task_names` state, the in-flight
count of `cn` never exceeds `MAXIMUM_CN_TASKS = 3` and that of `index` never
exceeds `MAXIMUM_INDEX_TASKS = 5`; for a limited category, `_checkServerLoad`
returns `True` and appends one in-flight name iff the count is below the
ceiling and otherwise returns `False` leaving the state unchanged; and
`_clearServerLoad` on a category with zero in-flight count is a no-op. -/
theorem admission_ceiling_c1 :
    (∀ ops : List AdmOp,
      (runAdmission ops []).count "cn" ≤ MAXIMUM_CN_TASKS ∧
      (runAdmission ops []).count "index" ≤ MAXIMUM_INDEX_TASKS) ∧
    (∀ (s : List String) (t : String), t = "cn" ∨ t = "index" →
      (s.count t < categoryCeiling t → checkServerLoad s t = (true, s ++ [t])) ∧
      (categoryCeiling t ≤ s.count t → checkServerLoad s t = (false, s))) ∧
    (∀ (s : List String) (t : String), s.count t = 0 → clearServerLoad s t = s) := by
  refine ⟨?_, ?_, ?_⟩
  · intro ops
    exact ⟨runAdmission_count_le "cn" MAXIMUM_CN_TASKS rfl (Or.inl rfl) ops []
        (by decide),
      runAdmission_count_le "index" MAXIMUM_INDEX_TASKS rfl (Or.inr rfl) ops []
        (by decide)⟩
  · intro s t ht
    rcases ht with rfl | rfl
    · have e1 : categoryCeiling "cn" = MAXIMUM_CN_TASKS := rfl
      constructor
      · intro hlt
        rw [e1] at hlt
        rw [checkServerLoad_cn, if_neg (Nat.not_le.mpr hlt)]
      · intro hge
        rw [e1] at hge
        rw [checkServerLoad_cn, if_pos hge]
    · have e2 : categoryCeiling "index" = MAXIMUM_INDEX_TASKS := by decide
      constructor
      · intro hlt
        rw [e2] at hlt
        rw [checkServerLoad_index, if_neg (Nat.not_le.mpr hlt)]
      · intro hge
        rw [e2] at hge
        rw [checkServerLoad_index, if_pos hge]
  · intro s t h
    exact List.erase_of_not_mem (List.count_eq_zero.mp h)

/-- Witness for C1: the invariant on a concrete interleaving that saturates
the `cn` ceiling; an admit at the ceiling that is rejected; and a release on
a category with zero in-flight count. -/
theorem admission_ceiling_c1_witness :
    ((runAdmission [.tryAdmit "cn", .tryAdmit "cn", .tryAdmit "cn",
        .tryAdmit "cn", .release "cn"] []).count "cn" ≤ MAXIMUM_CN_TASKS ∧
      (runAdmission [.tryAdmit "cn", .tryAdmit "cn", .tryAdmit "cn",
        .tryAdmit "cn", .release "cn"] []).count "index" ≤ MAXIMUM_INDEX_TASKS) ∧
    checkServerLoad ["cn", "cn", "cn"] "cn" = (false, ["cn", "cn", "cn"]) ∧
    clearServerLoad ["mn", "index"] "cn" = ["mn", "index"] := by
  refine ⟨admission_ceiling_c1.1 _, ?_, ?_⟩
  · exact (admission_ceiling_c1.2.1 ["cn", "cn", "cn"] "cn" (Or.inl rfl)).2
      (by decide)
  · exact admission_ceiling_c1.2.2 ["mn", "index"] "cn" (by decide)

/-! ## Step equations for the search loops

One equation per branch of each loop body, so later inductions rewrite
with the branch taken instead of re-unfolding the definition. -/

lemma oldestLoop_step_guard (g : Option Int → Option Int → GetOutcome)
    (yMax : Int) (dOffs dummy : Nat)
    (hy : yMax < yearOfDay (epoch2012 + (dOffs : Int))) :
    oldestLoop g yMax dOffs (dummy + 1) = ([], .notFound) := by
  simp only [oldestLoop]
  rw [if_pos hy]

lemma oldestLoop_step_raise (g : Option Int → Option Int → GetOutcome)
    (yMax : Int) (dOffs fuel : Nat) (e : String)
    (hy : ¬ yMax < yearOfDay (epoch2012 + (dOffs : Int)))
    (he : objectModifiedDates (g none (some (epoch2012 + (dOffs : Int)))) = .error e) :
    oldestLoop g yMax dOffs (fuel + 1) = ([], .raised e) := by
  simp only [oldestLoop]
  rw [if_neg hy]
  simp only [he]

lemma oldestLoop_step_hit (g : Option Int → Option Int → GetOutcome)
    (yMax : Int) (dOffs fuel : Nat) (olist : ProbeResult)
    (hy : ¬ yMax < yearOfDay (epoch2012 + (dOffs : Int)))
    (hok : objectModifiedDates (g none (some (epoch2012 + (dOffs : Int)))) = .ok olist)
    (ht : 0 < olist.total) :
    oldestLoop g yMax dOffs (fuel + 1) =
      ([⟨none, some (epoch2012 + (dOffs : Int)), olist⟩], hitFirst olist) := by
  simp only [oldestLoop]
  rw [if_neg hy]
  simp only [hok]
  rw [if_pos ht]

lemma oldestLoop_step_miss (g : Option Int → Option Int → GetOutcome)
    (yMax : Int) (dOffs fuel : Nat) (olist : ProbeResult)
    (hy : ¬ yMax < yearOfDay (epoch2012 + (dOffs : Int)))
    (hok : objectModifiedDates (g none (some (epoch2012 + (dOffs : Int)))) = .ok olist)
    (ht : ¬ 0 < olist.total) :
    oldestLoop g yMax dOffs (fuel + 1) =
      (⟨none, some (epoch2012 + (dOffs : Int)), olist⟩ ::
          (oldestLoop g yMax (dOffs + 180) fuel).1,
        (oldestLoop g yMax (dOffs + 180) fuel).2) := by
  simp only [oldestLoop]
  rw [if_neg hy]
  simp only [hok]
  rw [if_neg ht]

lemma newestLoop_step_guard (g : Option Int → Option Int → GetOutcome)
    (now : Int) (dOffs dInc dummy : Nat)
    (hy : yearOfDay (now - (dOffs : Int)) < 2012) :
    newestLoop g now dOffs dInc (dummy + 1) = ([], .notFound) := by
  simp only [newestLoop]
  rw [if_pos hy]

lemma newestLoop_step_raise (g : Option Int → Option Int → GetOutcome)
    (now : Int) (dOffs dInc fuel : Nat) (e : String)
    (hy : ¬ yearOfDay (now - (dOffs : Int)) < 2012)
    (he : objectModifiedDates (g (some (now - (dOffs : Int))) (some now)) = .error e) :
    newestLoop g now dOffs dInc (fuel + 1) = ([], .raised e) := by
  simp only [newestLoop]
  rw [if_neg hy]
  simp only [he]

lemma newestLoop_step_hit (g : Option Int → Option Int → GetOutcome)
    (now : Int) (dOffs dInc fuel : Nat) (olist : ProbeResult)
    (hy : ¬ yearOfDay (now - (dOffs : Int)) < 2012)
    (hok : objectModifiedDates (g (some (now - (dOffs : Int))) (some now)) = .ok olist)
    (ht : 0 < olist.total) :
    newestLoop g now dOffs dInc (fuel + 1) =
      ([⟨some (now - (dOffs : Int)), some now, olist⟩], hitLast olist) := by
  simp only [newestLoop]
  rw [if_neg hy]
  simp only [hok]
  rw [if_pos ht]

lemma newestLoop_step_miss (g : Option Int → Option Int → GetOutcome)
    (now : Int) (dOffs dInc fuel : Nat) (olist : ProbeResult)
    (hy : ¬ yearOfDay (now - (dOffs : Int)) < 2012)
    (hok : objectModifiedDates (g (some (now - (dOffs : Int))) (some now)) = .ok olist)
    (ht : ¬ 0 < olist.total) :
    newestLoop g now dOffs dInc (fuel + 1) =
      (⟨some (now - (dOffs : Int)), some now, olist⟩ ::
          (newestLoop g now (dOffs + (if 365 < 2 * dInc then 365 else 2 * dInc))
            (if 365 < 2 * dInc then 365 else 2 * dInc) fuel).1,
        (newestLoop g now (dOffs + (if 365 < 2 * dInc then 365 else 2 * dInc))
          (if 365 < 2 * dInc then 365 else 2 * dInc) fuel).2) := by
  simp only [newestLoop]
  rw [if_neg hy]
  simp only [hok]
  rw [if_neg ht]

/-! ## C7: handled probe failures yield "no match"; unhandled ones raise -/

/-- A probe failure *handled* by `_objectModifiedDates`: one of the four
caught exception classes, an unparseable body, or a non-200 upstream status
(also of a response that is not an objectList document).  An exception of
any other class (`GetOutcome.raises`) is not handled, nor is the `KeyError`
of a 200 non-objectList body. -/
def Failing : GetOutcome → Prop
  | .sslError _ => True
  | .maxRetryError _ => True
  | .readTimeout _ => True
  | .socketTimeout _ => True
  | .raises _ => False
  | .response st body => body = none ∨ st ≠ 200
  | .responseOther st => st ≠ 200

instance : DecidablePred Failing := by
  intro o
  cases o with
  | sslError m => exact inferInstanceAs (Decidable True)
  | maxRetryError m => exact inferInstanceAs (Decidable True)
  | readTimeout m => exact inferInstanceAs (Decidable True)
  | socketTimeout m => exact inferInstanceAs (Decidable True)
  | raises m => exact inferInstanceAs (Decidable False)
  | response st body => exact inferInstanceAs (Decidable (body = none ∨ st ≠ 200))
  | responseOther st => exact inferInstanceAs (Decidable (st ≠ 200))

lemma failing_probe_zero (o : GetOutcome) (h : Failing o) :
    ∃ r, objectModifiedDates o = .ok r ∧ r.total = 0 := by
  cases o with
  | sslError m => exact ⟨_, rfl, rfl⟩
  | maxRetryError m => exact ⟨_, rfl, rfl⟩
  | readTimeout m => exact ⟨_, rfl, rfl⟩
  | socketTimeout m => exact ⟨_, rfl, rfl⟩
  | raises m => cases h
  | response st body =>
    cases body with
    | none => exact ⟨_, rfl, rfl⟩
    | some doc =>
      rcases h with h | h
      · cases h
      · exact ⟨⟨0, 0, [], st⟩, by simp [objectModifiedDates, h], rfl⟩
  | responseOther st =>
    have h2 : st ≠ 200 := h
    exact ⟨⟨0, 0, [], st⟩, by simp [objectModifiedDates, h2], rfl⟩

lemma oldestLoop_outcome_congr_zero (g : Option Int → Option Int → GetOutcome)
    (h : ∀ a b, ∃ r, objectModifiedDates (g a b) = .ok r ∧ r.total = 0) :
    ∀ (fuel : Nat) (yMax : Int) (dOffs : Nat),
      (oldestLoop g yMax dOffs fuel).2 = (oldestLoop gZero yMax dOffs fuel).2 := by
  intro fuel
  induction fuel with
  | zero => intro yMax dOffs; rfl
  | succ fuel ih =>
    intro yMax dOffs
    by_cases hy : yMax < yearOfDay (epoch2012 + (dOffs : Int))
    · rw [oldestLoop_step_guard g yMax dOffs fuel hy,
        oldestLoop_step_guard gZero yMax dOffs fuel hy]
    · obtain ⟨r, hok, htot⟩ := h none (some (epoch2012 + (dOffs : Int)))
      have hz : objectModifiedDates (gZero none (some (epoch2012 + (dOffs : Int))))
          = .ok ⟨0, 0, [], 200⟩ := rfl
      rw [oldestLoop_step_miss g yMax dOffs fuel r hy hok (by omega),
        oldestLoop_step_miss gZero yMax dOffs fuel ⟨0, 0, [], 200⟩ hy hz
          (by exact lt_irrefl 0)]
      exact ih yMax (dOffs + 180)

lemma newestLoop_outcome_congr_zero (g : Option Int → Option Int → GetOutcome)
    (h : ∀ a b, ∃ r, objectModifiedDates (g a b) = .ok r ∧ r.total = 0) :
    ∀ (fuel : Nat) (now : Int) (dOffs dInc : Nat),
      (newestLoop g now dOffs dInc fuel).2 = (newestLoop gZero now dOffs dInc fuel).2 := by
  intro fuel
  induction fuel with
  | zero => intro now dOffs dInc; rfl
  | succ fuel ih =>
    intro now dOffs dInc
    by_cases hy : yearOfDay (now - (dOffs : Int)) < 2012
    · rw [newestLoop_step_guard g now dOffs dInc fuel hy,
        newestLoop_step_guard gZero now dOffs dInc fuel hy]
    · obtain ⟨r, hok, htot⟩ := h (some (now - (dOffs : Int))) (some now)
      have hz : objectModifiedDates (gZero (some (now - (dOffs : Int))) (some now))
          = .ok ⟨0, 0, [], 200⟩ := rfl
      rw [newestLoop_step_miss g now dOffs dInc fuel r hy hok (by omega),
        newestLoop_step_miss gZero now dOffs dInc fuel ⟨0, 0, [], 200⟩ hy hz
          (by exact lt_irrefl 0)]
      exact ih now _ _

/-- Counterexample for C7: a connection-refused error
(`requests.exceptions.ConnectionError`) is an underlying transport failure,
but `_objectModifiedDates` catches only `SSLError`, `MaxRetryError`,
`ReadTimeout` and `socket.timeout`, so the probe *raises* the exception to
the caller instead of yielding a "no match" result. -/
theorem probe_raise_counterexample_c7 :
    objectModifiedDates (.raises "connection refused") = .error "connection refused" ∧
    (∀ r, objectModifiedDates (.raises "connection refused") ≠ .ok r) := by
  refine ⟨rfl, fun r hc => ?_⟩
  rw [show objectModifiedDates (.raises "connection refused")
    = .error "connection refused" from rfl] at hc
  cases hc

/-- C7 (amended): a probe failure *among the handled classes* (the four
caught exception types, an unparseable XML body, or a non-200 upstream
status) yields a "no match" probe result (`total = 0`) without raising, and
a transport all of whose probes fail in a handled way makes `grokMNDates`
terminate with no earliest and no latest boundary (shown at the concrete
check time 2026-10-12 with ample fuel; the outcomes are the loops' own
`notFound` terminations, not fuel exhaustion).  But an exception of any
*other* class — e.g. connection refused, `ConnectTimeout`, a generic error,
or the `KeyError` on a 200 response that is not an objectList document —
propagates out of the probe, out of the boundary search, and out of the
mn/cn check. -/
theorem probe_failures_c7 :
    (∀ o, Failing o → ∃ r, objectModifiedDates o = .ok r ∧ r.total = 0) ∧
    (∀ g : Option Int → Option Int → GetOutcome, (∀ a b, Failing (g a b)) →
      grokMNDates g (daysFromCivil 2026 10 12) 100 =
        (SearchOutcome.notFound, SearchOutcome.notFound)) ∧
    (∀ m, objectModifiedDates (.raises m) = .error m) ∧
    objectModifiedDates (.responseOther 200) = .error "KeyError" ∧
    grokMNDates (fun _ _ => .raises "connection refused")
        (daysFromCivil 2026 10 12) 100 =
      (SearchOutcome.raised "connection refused",
        SearchOutcome.raised "connection refused") ∧
    objectInfoFromMN (listingAttempt []) (fun _ _ => .raises "connection refused")
        (daysFromCivil 2026 10 12) HTTP_TIMEOUT 100 =
      .error "connection refused" := by
  refine ⟨failing_probe_zero, ?_, fun _ => rfl, rfl, by decide, by decide⟩
  intro g hg
  have htot : ∀ a b, ∃ r, objectModifiedDates (g a b) = .ok r ∧ r.total = 0 :=
    fun a b => failing_probe_zero _ (hg a b)
  have h1 : (oldestSearch g (daysFromCivil 2026 10 12) 100).2 = SearchOutcome.notFound := by
    unfold oldestSearch
    rw [oldestLoop_outcome_congr_zero g htot]
    decide
  have h2 : (newestSearch g (daysFromCivil 2026 10 12) 100).2 = SearchOutcome.notFound := by
    unfold newestSearch
    rw [newestLoop_outcome_congr_zero g htot]
    decide
  unfold grokMNDates
  rw [h1, h2]

/-- Witness for C7: a transport that always times out satisfies the handled
conjuncts concretely. -/
theorem probe_failures_c7_witness :
    (∃ r, objectModifiedDates (.readTimeout "timed out") = .ok r ∧ r.total = 0) ∧
    grokMNDates (fun _ _ => .readTimeout "timed out") (daysFromCivil 2026 10 12) 100 =
      (SearchOutcome.notFound, SearchOutcome.notFound) :=
  ⟨probe_failures_c7.1 (.readTimeout "timed out") trivial,
    probe_failures_c7.2.1 (fun _ _ => .readTimeout "timed out") (fun _ _ => trivial)⟩

/-! ## C2 / C3: structure of the boundary searches -/

/-- Well-formedness of a probe transport: any parsed object-list document
reports in `@count` the number of `objectInfo` entries it carries. -/
def WellFormedTransport (g : Option Int → Option Int → GetOutcome) : Prop :=
  ∀ a b st doc, g a b = .response st (some doc) → doc.count = doc.objectInfo.length

/-- The record list of a successfully returned probe is sorted ascending by
modification date (for a well-formed document; the `count == 1` branch is a
singleton). -/
lemma objectModifiedDates_sorted (o : GetOutcome)
    (hwf : ∀ st doc, o = .response st (some doc) → doc.count = doc.objectInfo.length) :
    ∀ r, objectModifiedDates o = .ok r → List.Sorted byDate r.objects := by
  intro r hr
  obtain ⟨rtotal, rcount, robjects, rstatus⟩ := r
  cases o with
  | sslError m =>
    simp only [objectModifiedDates, Except.ok.injEq, ProbeResult.mk.injEq] at hr
    rw [← hr.2.2.1]
    exact List.sorted_nil
  | maxRetryError m =>
    simp only [objectModifiedDates, Except.ok.injEq, ProbeResult.mk.injEq] at hr
    rw [← hr.2.2.1]
    exact List.sorted_nil
  | readTimeout m =>
    simp only [objectModifiedDates, Except.ok.injEq, ProbeResult.mk.injEq] at hr
    rw [← hr.2.2.1]
    exact List.sorted_nil
  | socketTimeout m =>
    simp only [objectModifiedDates, Except.ok.injEq, ProbeResult.mk.injEq] at hr
    rw [← hr.2.2.1]
    exact List.sorted_nil
  | raises m => exact Except.noConfusion hr
  | responseOther st =>
    by_cases hst : st ≠ 200
    · simp only [objectModifiedDates, if_pos hst, Except.ok.injEq,
        ProbeResult.mk.injEq] at hr
      rw [← hr.2.2.1]
      exact List.sorted_nil
    · simp only [objectModifiedDates, if_neg hst] at hr
      exact Except.noConfusion hr
  | response st body =>
    cases body with
    | none =>
      simp only [objectModifiedDates, Except.ok.injEq, ProbeResult.mk.injEq] at hr
      rw [← hr.2.2.1]
      exact List.sorted_nil
    | some doc =>
      by_cases hst : st ≠ 200
      · simp only [objectModifiedDates, if_pos hst, Except.ok.injEq,
          ProbeResult.mk.injEq] at hr
        rw [← hr.2.2.1]
        exact List.sorted_nil
      · simp only [objectModifiedDates, if_neg hst, Except.ok.injEq,
          ProbeResult.mk.injEq] at hr
        rw [← hr.2.2.1]
        by_cases h1 : doc.count = 1
        · rw [if_pos h1]
          have hlen : doc.objectInfo.length = 1 := (hwf st doc rfl).symm.trans h1
          obtain ⟨e, he⟩ := List.length_eq_one.mp hlen
          rw [he]
          exact List.sorted_singleton _
        · rw [if_neg h1]
          by_cases h2 : 1 < doc.count
          · rw [if_pos h2]
            exact List.sorted_insertionSort byDate _
          · rw [if_neg h2]
            exact List.sorted_nil

lemma newestInc_succ_eq (k : Nat) :
    (if 365 < 2 * newestInc k then 365 else 2 * newestInc k) = newestInc (k + 1) := by
  simp [newestInc]

lemma newestWidth_succ_eq (k : Nat) :
    newestWidth k + newestInc (k + 1) = newestWidth (k + 1) := by
  simp [newestWidth]

/-- Every probe the newest loop issues (starting from the state reached
after `k` misses) uses the window `(now - newestWidth (k+j), now)`. -/
lemma newestLoop_log_window (g : Option Int → Option Int → GetOutcome) (now : Int) :
    ∀ (fuel k j : Nat) (step : ProbeStep),
      ((newestLoop g now (newestWidth k) (newestInc k) fuel).1)[j]? = some step →
      step.t0 = some (now - (newestWidth (k + j) : Int)) ∧ step.t1 = some now := by
  intro fuel
  induction fuel with
  | zero => intro k j step h; simp [newestLoop] at h
  | succ fuel ih =>
    intro k j step h
    by_cases hy : yearOfDay (now - (newestWidth k : Int)) < 2012
    · rw [newestLoop_step_guard g now (newestWidth k) (newestInc k) fuel hy] at h
      simp at h
    · cases hok : objectModifiedDates
          (g (some (now - (newestWidth k : Int))) (some now)) with
      | error e =>
        rw [newestLoop_step_raise g now (newestWidth k) (newestInc k) fuel e hy hok] at h
        simp at h
      | ok olist =>
        by_cases ht : 0 < olist.total
        · rw [newestLoop_step_hit g now (newestWidth k) (newestInc k)
            fuel olist hy hok ht] at h
          cases j with
          | zero =>
            simp only [List.getElem?_cons_zero, Option.some.injEq] at h
            rw [← h]
            exact ⟨rfl, rfl⟩
          | succ j =>
            simp only [List.getElem?_cons_succ, List.getElem?_nil] at h
            cases h
        · rw [newestLoop_step_miss g now (newestWidth k) (newestInc k)
            fuel olist hy hok ht] at h
          rw [newestInc_succ_eq, newestWidth_succ_eq] at h
          cases j with
          | zero =>
            simp only [List.getElem?_cons_zero, Option.some.injEq] at h
            rw [← h]
            exact ⟨rfl, rfl⟩
          | succ j =>
            simp only [List.getElem?_cons_succ] at h
            have hr := ih (k + 1) j step h
            have hidx : k + 1 + j = k + (j + 1) := by omega
            rw [hidx] at hr
            exact hr

/-- Every probe of the newest loop except the last returned zero total
matches (the loop stops at the first hit). -/
lemma newestLoop_log_miss (g : Option Int → Option Int → GetOutcome) (now : Int) :
    ∀ (fuel dOffs dInc j : Nat) (step : ProbeStep),
      ((newestLoop g now dOffs dInc fuel).1)[j]? = some step →
      j + 1 < (newestLoop g now dOffs dInc fuel).1.length →
      step.res.total = 0 := by
  intro fuel
  induction fuel with
  | zero => intro dOffs dInc j step h hlt; simp [newestLoop] at h
  | succ fuel ih =>
    intro dOffs dInc j step h hlt
    by_cases hy : yearOfDay (now - (dOffs : Int)) < 2012
    · rw [newestLoop_step_guard g now dOffs dInc fuel hy] at h
      simp at h
    · cases hok : objectModifiedDates (g (some (now - (dOffs : Int))) (some now)) with
      | error e =>
        rw [newestLoop_step_raise g now dOffs dInc fuel e hy hok] at h
        simp at h
      | ok olist =>
        by_cases ht : 0 < olist.total
        · rw [newestLoop_step_hit g now dOffs dInc fuel olist hy hok ht] at h hlt
          simp at hlt
        · rw [newestLoop_step_miss g now dOffs dInc fuel olist hy hok ht] at h hlt
          cases j with
          | zero =>
            simp only [List.getElem?_cons_zero, Option.some.injEq] at h
            rw [← h]
            exact Nat.eq_zero_of_not_pos ht
          | succ j =>
            simp only [List.getElem?_cons_succ] at h
            simp only [List.length_cons] at hlt
            exact ih _ _ j step h (by omega)

/-- When the newest loop reports a boundary, the boundary is `objects[-1]`
of the last (first and only hitting) probe in the log. -/
lemma newestLoop_found_last (g : Option Int → Option Int → GetOutcome) (now : Int) :
    ∀ (fuel dOffs dInc : Nat) (ts : Int) (pid : String),
      (newestLoop g now dOffs dInc fuel).2 = .found ts pid →
      ∃ step, (newestLoop g now dOffs dInc fuel).1.getLast? = some step ∧
        0 < step.res.total ∧
        step.res.objects.getLast? = some (ts, pid) := by
  intro fuel
  induction fuel with
  | zero => intro dOffs dInc ts pid h; cases h
  | succ fuel ih =>
    intro dOffs dInc ts pid h
    by_cases hy : yearOfDay (now - (dOffs : Int)) < 2012
    · rw [newestLoop_step_guard g now dOffs dInc fuel hy] at h
      cases h
    · cases hok : objectModifiedDates (g (some (now - (dOffs : Int))) (some now)) with
      | error e =>
        rw [newestLoop_step_raise g now dOffs dInc fuel e hy hok] at h
        cases h
      | ok olist =>
        by_cases ht : 0 < olist.total
        · rw [newestLoop_step_hit g now dOffs dInc fuel olist hy hok ht] at h ⊢
          cases hg : olist.objects.getLast? with
          | none => simp [hitLast, hg] at h
          | some o =>
            simp only [hitLast, hg, SearchOutcome.found.injEq] at h
            refine ⟨⟨some (now - (dOffs : Int)), some now, olist⟩, by simp, ht, ?_⟩
            rw [hg, ← h.1, ← h.2]
        · rw [newestLoop_step_miss g now dOffs dInc fuel olist hy hok ht] at h ⊢
          obtain ⟨step, hs, hpos, hobj⟩ := ih _ _ ts pid h
          refine ⟨step, ?_, hpos, hobj⟩
          cases hrun : (newestLoop g now
              (dOffs + (if 365 < 2 * dInc then 365 else 2 * dInc))
              (if 365 < 2 * dInc then 365 else 2 * dInc) fuel).1 with
          | nil => rw [hrun] at hs; cases hs
          | cons a l => rw [hrun] at hs; simp [List.getLast?_cons, hrun, hs]

/-- When the newest loop terminates with no boundary, it is because the
window lower edge's year dropped below the 2012 floor, at the width the
reference sequence predicts for the number of probes issued. -/
lemma newestLoop_notFound_stop (g : Option Int → Option Int → GetOutcome) (now : Int) :
    ∀ (fuel k : Nat),
      (newestLoop g now (newestWidth k) (newestInc k) fuel).2 = .notFound →
      yearOfDay (now - (newestWidth
        (k + (newestLoop g now (newestWidth k) (newestInc k) fuel).1.length) : Int)) < 2012 := by
  intro fuel
  induction fuel with
  | zero => intro k h; cases h
  | succ fuel ih =>
    intro k h
    by_cases hy : yearOfDay (now - (newestWidth k : Int)) < 2012
    · rw [newestLoop_step_guard g now (newestWidth k) (newestInc k) fuel hy] at h ⊢
      simpa using hy
    · cases hok : objectModifiedDates
          (g (some (now - (newestWidth k : Int))) (some now)) with
      | error e =>
        rw [newestLoop_step_raise g now (newestWidth k) (newestInc k) fuel e hy hok] at h
        cases h
      | ok olist =>
        by_cases ht : 0 < olist.total
        · rw [newestLoop_step_hit g now (newestWidth k) (newestInc k)
            fuel olist hy hok ht] at h
          cases hg : olist.objects.getLast? with
          | none => simp [hitLast, hg] at h
          | some o => simp [hitLast, hg] at h
        · rw [newestLoop_step_miss g now (newestWidth k) (newestInc k)
            fuel olist hy hok ht] at h ⊢
          rw [newestInc_succ_eq, newestWidth_succ_eq] at h ⊢
          have hr := ih (k + 1) h
          simp only [List.length_cons] at hr ⊢
          have hidx : k + 1 + (newestLoop g now (newestWidth (k + 1))
              (newestInc (k + 1)) fuel).1.length
              = k + ((newestLoop g now (newestWidth (k + 1))
              (newestInc (k + 1)) fuel).1.length + 1) := by omega
          rw [hidx] at hr
          exact hr

/-- Every probe step in the newest log records exactly the (successful)
result of `_objectModifiedDates` on its own window. -/
lemma newestLoop_log_res (g : Option Int → Option Int → GetOutcome) (now : Int) :
    ∀ (fuel dOffs dInc j : Nat) (step : ProbeStep),
      ((newestLoop g now dOffs dInc fuel).1)[j]? = some step →
      objectModifiedDates (g step.t0 step.t1) = .ok step.res := by
  intro fuel
  induction fuel with
  | zero => intro dOffs dInc j step h; simp [newestLoop] at h
  | succ fuel ih =>
    intro dOffs dInc j step h
    by_cases hy : yearOfDay (now - (dOffs : Int)) < 2012
    · rw [newestLoop_step_guard g now dOffs dInc fuel hy] at h
      simp at h
    · cases hok : objectModifiedDates (g (some (now - (dOffs : Int))) (some now)) with
      | error e =>
        rw [newestLoop_step_raise g now dOffs dInc fuel e hy hok] at h
        simp at h
      | ok olist =>
        by_cases ht : 0 < olist.total
        · rw [newestLoop_step_hit g now dOffs dInc fuel olist hy hok ht] at h
          cases j with
          | zero =>
            simp only [List.getElem?_cons_zero, Option.some.injEq] at h
            rw [← h]
            exact hok
          | succ j =>
            simp only [List.getElem?_cons_succ, List.getElem?_nil] at h
            cases h
        · rw [newestLoop_step_miss g now dOffs dInc fuel olist hy hok ht] at h
          cases j with
          | zero =>
            simp only [List.getElem?_cons_zero, Option.some.injEq] at h
            rw [← h]
            exact hok
          | succ j =>
            simp only [List.getElem?_cons_succ] at h
            exact ih _ _ j step h

/-- Counterexample for C2: with every probe missing, at check time
2026-10-12 the newest search's eighth probed window is 510 days wide —
the *widths* are not capped at 365 days (only the per-miss increment is) —
and the second width is 6 days, not the 4 that doubling the width itself
would give. -/
theorem newest_widths_counterexample_c2 :
    ((newestSearch gZero (daysFromCivil 2026 10 12) 100).1.map
        (stepWidth (daysFromCivil 2026 10 12)))[7]? = some 510 ∧
    ¬ ((510 : Int) ≤ 365) ∧
    ((newestSearch gZero (daysFromCivil 2026 10 12) 100).1.map
        (stepWidth (daysFromCivil 2026 10 12)))[1]? = some 6 ∧
    (6 : Int) ≠ 2 * 2 := by
  exact ⟨by decide, by decide, by decide, by decide⟩

/-- C2 (amended): the newest-boundary search probes windows
`[now - offset, now)` whose widths follow `newestWidth`: starting at 2 days
and non-decreasing, each miss adding an increment that doubles from 2 days
and is capped at 365 days (the *increment*, not the window width, is capped;
widths grow without bound until the floor cutoff).  Every probe before the
last returned zero matches; on the first window with total > 0 the search
returns the last entry of that window's ascending-sorted record list, which
carries the maximum timestamp among the returned records; and it terminates
with no boundary exactly when the next window's lower edge falls in a year
below the 2012 floor. -/
theorem newest_search_c2 :
    newestWidth 0 = 2 ∧
    (∀ k, newestWidth k ≤ newestWidth (k + 1)) ∧
    (∀ k, newestInc (k + 1) ≤ 365) ∧
    (∀ (g : Option Int → Option Int → GetOutcome) (now : Int) (fuel j : Nat)
        (step : ProbeStep),
      ((newestSearch g now fuel).1)[j]? = some step →
      step.t0 = some (now - (newestWidth j : Int)) ∧ step.t1 = some now) ∧
    (∀ (g : Option Int → Option Int → GetOutcome) (now : Int) (fuel j : Nat)
        (step : ProbeStep),
      ((newestSearch g now fuel).1)[j]? = some step →
      j + 1 < (newestSearch g now fuel).1.length →
      step.res.total = 0) ∧
    (∀ (g : Option Int → Option Int → GetOutcome) (now : Int) (fuel : Nat)
        (ts : Int) (pid : String), WellFormedTransport g →
      (newestSearch g now fuel).2 = .found ts pid →
      ∃ step, (newestSearch g now fuel).1.getLast? = some step ∧
        0 < step.res.total ∧ (ts, pid) ∈ step.res.objects ∧
        ∀ x ∈ step.res.objects, x.1 ≤ ts) ∧
    (∀ (g : Option Int → Option Int → GetOutcome) (now : Int) (fuel : Nat),
      (newestSearch g now fuel).2 = .notFound →
      yearOfDay (now - (newestWidth (newestSearch g now fuel).1.length : Int)) < 2012) := by
  refine ⟨rfl, ?_, ?_, ?_, ?_, ?_, ?_⟩
  · intro k
    rw [← newestWidth_succ_eq]
    omega
  · intro k
    rw [← newestInc_succ_eq]
    split
    · omega
    · next h =>
      have h2 : 2 ≤ newestInc k := by
        induction k with
        | zero => exact le_refl 2
        | succ k ihk =>
          rw [← newestInc_succ_eq]
          split
          · omega
          · omega
      omega
  · intro g now fuel j step h
    have hw := newestLoop_log_window g now fuel 0 j step h
    simpa using hw
  · intro g now fuel j step h hlt
    exact newestLoop_log_miss g now fuel 2 2 j step h hlt
  · intro g now fuel ts pid hwf h
    obtain ⟨step, hs, hpos, hobj⟩ := newestLoop_found_last g now fuel 2 2 ts pid h
    have hmem : step ∈ (newestSearch g now fuel).1 := getLast?_mem_of_eq _ _ hs
    obtain ⟨j, hjlt, hj⟩ := List.getElem_of_mem hmem
    have hj2 : ((newestSearch g now fuel).1)[j]? = some step := by
      rw [List.getElem?_eq_getElem hjlt, hj]
    have hres : objectModifiedDates (g step.t0 step.t1) = .ok step.res :=
      newestLoop_log_res g now fuel 2 2 j step hj2
    have hsorted : List.Sorted byDate step.res.objects :=
      objectModifiedDates_sorted _
        (fun st doc hd => hwf step.t0 step.t1 st doc hd) _ hres
    refine ⟨step, hs, hpos, getLast?_mem_of_eq _ _ hobj, ?_⟩
    intro x hx
    rcases sorted_rel_getLast _ hsorted _ hobj x hx with rfl | hrel
    · exact le_refl _
    · exact hrel
  · intro g now fuel h
    have hr := newestLoop_notFound_stop g now fuel 0 h
    simpa using hr

/-- A transport whose first window already contains two records (used to
witness the first-hit behavior of the searches). -/
def gHit : Option Int → Option Int → GetOutcome :=
  fun _ _ => .response 200 (some ⟨2, 2, [⟨5, "a"⟩, ⟨9, "b"⟩]⟩)

/-- Witness for C2: the first-hit/maximum conjunct at a concrete transport
whose window holds records at days 5 and 9, and the termination conjunct at
the always-empty transport. -/
theorem newest_search_c2_witness :
    (∃ step, (newestSearch gHit 20738 10).1.getLast? = some step ∧
      0 < step.res.total ∧ ((9 : Int), "b") ∈ step.res.objects ∧
      ∀ x ∈ step.res.objects, x.1 ≤ 9) ∧
    yearOfDay (20738 - (newestWidth (newestSearch gZero 20738 100).1.length : Int))
      < 2012 := by
  constructor
  · have hwf : WellFormedTransport gHit := by
      intro a b st doc h
      simp only [gHit, GetOutcome.response.injEq, Option.some.injEq] at h
      rw [← h.2]
      rfl
    exact newest_search_c2.2.2.2.2.2.1 gHit 20738 10 9 "b" hwf (by decide)
  · exact newest_search_c2.2.2.2.2.2.2 gZero 20738 100 (by decide)

/-! ### The oldest-boundary search (C3) -/

/-- Every probe the oldest loop issues (starting from the state reached
after `k` misses) has *no lower bound* and upper bound
`epoch2012 + 180·(k+j)` days. -/
lemma oldestLoop_log_window (g : Option Int → Option Int → GetOutcome) (yMax : Int) :
    ∀ (fuel k j : Nat) (step : ProbeStep),
      ((oldestLoop g yMax (180 * k) fuel).1)[j]? = some step →
      step.t0 = none ∧ step.t1 = some (epoch2012 + (180 * (k + j) : Nat)) := by
  intro fuel
  induction fuel with
  | zero => intro k j step h; simp [oldestLoop] at h
  | succ fuel ih =>
    intro k j step h
    by_cases hy : yMax < yearOfDay (epoch2012 + ((180 * k : Nat) : Int))
    · rw [oldestLoop_step_guard g yMax (180 * k) fuel hy] at h
      simp at h
    · cases hok : objectModifiedDates
          (g none (some (epoch2012 + ((180 * k : Nat) : Int)))) with
      | error e =>
        rw [oldestLoop_step_raise g yMax (180 * k) fuel e hy hok] at h
        simp at h
      | ok olist =>
        by_cases ht : 0 < olist.total
        · rw [oldestLoop_step_hit g yMax (180 * k) fuel olist hy hok ht] at h
          cases j with
          | zero =>
            simp only [List.getElem?_cons_zero, Option.some.injEq] at h
            rw [← h]
            exact ⟨rfl, rfl⟩
          | succ j =>
            simp only [List.getElem?_cons_succ, List.getElem?_nil] at h
            cases h
        · rw [oldestLoop_step_miss g yMax (180 * k) fuel olist hy hok ht] at h
          rw [show (180 * k + 180 : Nat) = 180 * (k + 1) from by omega] at h
          cases j with
          | zero =>
            simp only [List.getElem?_cons_zero, Option.some.injEq] at h
            rw [← h]
            exact ⟨rfl, rfl⟩
          | succ j =>
            simp only [List.getElem?_cons_succ] at h
            have hr := ih (k + 1) j step h
            rw [show k + 1 + j = k + (j + 1) from by omega] at hr
            exact hr

/-- Every probe of the oldest loop except the last returned zero total
matches. -/
lemma oldestLoop_log_miss (g : Option Int → Option Int → GetOutcome) (yMax : Int) :
    ∀ (fuel dOffs j : Nat) (step : ProbeStep),
      ((oldestLoop g yMax dOffs fuel).1)[j]? = some step →
      j + 1 < (oldestLoop g yMax dOffs fuel).1.length →
      step.res.total = 0 := by
  intro fuel
  induction fuel with
  | zero => intro dOffs j step h hlt; simp [oldestLoop] at h
  | succ fuel ih =>
    intro dOffs j step h hlt
    by_cases hy : yMax < yearOfDay (epoch2012 + (dOffs : Int))
    · rw [oldestLoop_step_guard g yMax dOffs fuel hy] at h
      simp at h
    · cases hok : objectModifiedDates (g none (some (epoch2012 + (dOffs : Int)))) with
      | error e =>
        rw [oldestLoop_step_raise g yMax dOffs fuel e hy hok] at h
        simp at h
      | ok olist =>
        by_cases ht : 0 < olist.total
        · rw [oldestLoop_step_hit g yMax dOffs fuel olist hy hok ht] at h hlt
          simp at hlt
        · rw [oldestLoop_step_miss g yMax dOffs fuel olist hy hok ht] at h hlt
          cases j with
          | zero =>
            simp only [List.getElem?_cons_zero, Option.some.injEq] at h
            rw [← h]
            exact Nat.eq_zero_of_not_pos ht
          | succ j =>
            simp only [List.getElem?_cons_succ] at h
            simp only [List.length_cons] at hlt
            exact ih _ j step h (by omega)

/-- Every probe step in the oldest log records exactly the (successful)
result of `_objectModifiedDates` on its own window. -/
lemma oldestLoop_log_res (g : Option Int → Option Int → GetOutcome) (yMax : Int) :
    ∀ (fuel dOffs j : Nat) (step : ProbeStep),
      ((oldestLoop g yMax dOffs fuel).1)[j]? = some step →
      objectModifiedDates (g step.t0 step.t1) = .ok step.res := by
  intro fuel
  induction fuel with
  | zero => intro dOffs j step h; simp [oldestLoop] at h
  | succ fuel ih =>
    intro dOffs j step h
    by_cases hy : yMax < yearOfDay (epoch2012 + (dOffs : Int))
    · rw [oldestLoop_step_guard g yMax dOffs fuel hy] at h
      simp at h
    · cases hok : objectModifiedDates (g none (some (epoch2012 + (dOffs : Int)))) with
      | error e =>
        rw [oldestLoop_step_raise g yMax dOffs fuel e hy hok] at h
        simp at h
      | ok olist =>
        by_cases ht : 0 < olist.total
        · rw [oldestLoop_step_hit g yMax dOffs fuel olist hy hok ht] at h
          cases j with
          | zero =>
            simp only [List.getElem?_cons_zero, Option.some.injEq] at h
            rw [← h]
            exact hok
          | succ j =>
            simp only [List.getElem?_cons_succ, List.getElem?_nil] at h
            cases h
        · rw [oldestLoop_step_miss g yMax dOffs fuel olist hy hok ht] at h
          cases j with
          | zero =>
            simp only [List.getElem?_cons_zero, Option.some.injEq] at h
            rw [← h]
            exact hok
          | succ j =>
            simp only [List.getElem?_cons_succ] at h
            exact ih _ j step h

/-- When the oldest loop reports a boundary, the boundary is `objects[0]`
of the last (first and only hitting) probe in the log. -/
lemma oldestLoop_found_last (g : Option Int → Option Int → GetOutcome) (yMax : Int) :
    ∀ (fuel dOffs : Nat) (ts : Int) (pid : String),
      (oldestLoop g yMax dOffs fuel).2 = .found ts pid →
      ∃ step, (oldestLoop g yMax dOffs fuel).1.getLast? = some step ∧
        0 < step.res.total ∧
        step.res.objects.head? = some (ts, pid) := by
  intro fuel
  induction fuel with
  | zero => intro dOffs ts pid h; cases h
  | succ fuel ih =>
    intro dOffs ts pid h
    by_cases hy : yMax < yearOfDay (epoch2012 + (dOffs : Int))
    · rw [oldestLoop_step_guard g yMax dOffs fuel hy] at h
      cases h
    · cases hok : objectModifiedDates (g none (some (epoch2012 + (dOffs : Int)))) with
      | error e =>
        rw [oldestLoop_step_raise g yMax dOffs fuel e hy hok] at h
        cases h
      | ok olist =>
        by_cases ht : 0 < olist.total
        · rw [oldestLoop_step_hit g yMax dOffs fuel olist hy hok ht] at h ⊢
          cases hg : olist.objects.head? with
          | none => simp [hitFirst, hg] at h
          | some o =>
            simp only [hitFirst, hg, SearchOutcome.found.injEq] at h
            refine ⟨⟨none, some (epoch2012 + (dOffs : Int)), olist⟩, by simp, ht, ?_⟩
            rw [hg, ← h.1, ← h.2]
        · rw [oldestLoop_step_miss g yMax dOffs fuel olist hy hok ht] at h ⊢
          obtain ⟨step, hs, hpos, hobj⟩ := ih _ ts pid h
          refine ⟨step, ?_, hpos, hobj⟩
          cases hrun : (oldestLoop g yMax (dOffs + 180) fuel).1 with
          | nil => rw [hrun] at hs; cases hs
          | cons a l => rw [hrun] at hs; simp [List.getLast?_cons, hrun, hs]

/-- When the oldest loop terminates with no boundary, it is because the
next window's upper edge falls in a year beyond `y_max`. -/
lemma oldestLoop_notFound_stop (g : Option Int → Option Int → GetOutcome) (yMax : Int) :
    ∀ (fuel k : Nat),
      (oldestLoop g yMax (180 * k) fuel).2 = .notFound →
      yMax < yearOfDay (epoch2012 +
        (180 * (k + (oldestLoop g yMax (180 * k) fuel).1.length) : Nat)) := by
  intro fuel
  induction fuel with
  | zero => intro k h; cases h
  | succ fuel ih =>
    intro k h
    by_cases hy : yMax < yearOfDay (epoch2012 + ((180 * k : Nat) : Int))
    · rw [oldestLoop_step_guard g yMax (180 * k) fuel hy] at h ⊢
      simpa using hy
    · cases hok : objectModifiedDates
          (g none (some (epoch2012 + ((180 * k : Nat) : Int)))) with
      | error e =>
        rw [oldestLoop_step_raise g yMax (180 * k) fuel e hy hok] at h
        cases h
      | ok olist =>
        by_cases ht : 0 < olist.total
        · rw [oldestLoop_step_hit g yMax (180 * k) fuel olist hy hok ht] at h
          cases hg : olist.objects.head? with
          | none => simp [hitFirst, hg] at h
          | some o => simp [hitFirst, hg] at h
        · rw [oldestLoop_step_miss g yMax (180 * k) fuel olist hy hok ht] at h ⊢
          rw [show (180 * k + 180 : Nat) = 180 * (k + 1) from by omega] at h ⊢
          have hr := ih (k + 1) h
          simp only [List.length_cons] at hr ⊢
          rw [show k + 1 + (oldestLoop g yMax (180 * (k + 1)) fuel).1.length
            = k + ((oldestLoop g yMax (180 * (k + 1)) fuel).1.length + 1)
            from by omega] at hr
          exact hr

/-- Counterexample for C3: with every probe missing, at check time
2026-10-12 (day 20738) the earliest search's first probe has *no lower
bound* — the window is `(-inf, epoch)`, not `[epoch, epoch + 0)` — and the
31st probe's upper edge is day 20740, two days past the current date, yet
is still probed (the loop stops only when the upper edge's *year* exceeds
the current year). -/
theorem oldest_windows_counterexample_c3 :
    ((oldestSearch gZero (daysFromCivil 2026 10 12) 100).1.map
        (fun s => s.t0))[0]? = some none ∧
    ((oldestSearch gZero (daysFromCivil 2026 10 12) 100).1.map
        (fun s => s.t1))[30]? = some (some 20740) ∧
    daysFromCivil 2026 10 12 < 20740 := by
  exact ⟨by decide, by decide, by decide⟩

/-- C3 (amended): the earliest-boundary search probes windows
`(-inf, epoch + offset)` — only a `toDate` is sent, the lower edge is
unbounded rather than the 2012-01-01 epoch — with `offset` starting at 0 and
increasing by 180 days per miss; every probe before the last returned zero
matches; on the first window with total > 0 it returns the head of that
window's ascending-sorted record list, which carries the minimum timestamp
among the returned records; and it stops with no boundary when the next
window's upper edge falls in a year beyond the current year (not when it
merely passes the current date). -/
theorem oldest_search_c3 :
    (∀ (g : Option Int → Option Int → GetOutcome) (now : Int) (fuel j : Nat)
        (step : ProbeStep),
      ((oldestSearch g now fuel).1)[j]? = some step →
      step.t0 = none ∧ step.t1 = some (epoch2012 + (180 * j : Nat))) ∧
    (∀ (g : Option Int → Option Int → GetOutcome) (now : Int) (fuel j : Nat)
        (step : ProbeStep),
      ((oldestSearch g now fuel).1)[j]? = some step →
      j + 1 < (oldestSearch g now fuel).1.length →
      step.res.total = 0) ∧
    (∀ (g : Option Int → Option Int → GetOutcome) (now : Int) (fuel : Nat)
        (ts : Int) (pid : String), WellFormedTransport g →
      (oldestSearch g now fuel).2 = .found ts pid →
      ∃ step, (oldestSearch g now fuel).1.getLast? = some step ∧
        0 < step.res.total ∧ (ts, pid) ∈ step.res.objects ∧
        ∀ x ∈ step.res.objects, ts ≤ x.1) ∧
    (∀ (g : Option Int → Option Int → GetOutcome) (now : Int) (fuel : Nat),
      (oldestSearch g now fuel).2 = .notFound →
      yearOfDay now < yearOfDay (epoch2012 +
        (180 * (oldestSearch g now fuel).1.length : Nat))) := by
  refine ⟨?_, ?_, ?_, ?_⟩
  · intro g now fuel j step h
    have hw := oldestLoop_log_window g (yearOfDay now) fuel 0 j step h
    simpa using hw
  · intro g now fuel j step h hlt
    exact oldestLoop_log_miss g (yearOfDay now) fuel 0 j step h hlt
  · intro g now fuel ts pid hwf h
    obtain ⟨step, hs, hpos, hobj⟩ :=
      oldestLoop_found_last g (yearOfDay now) fuel 0 ts pid h
    have hmem : step ∈ (oldestSearch g now fuel).1 := getLast?_mem_of_eq _ _ hs
    obtain ⟨j, hjlt, hj⟩ := List.getElem_of_mem hmem
    have hj2 : ((oldestSearch g now fuel).1)[j]? = some step := by
      rw [List.getElem?_eq_getElem hjlt, hj]
    have hres : objectModifiedDates (g step.t0 step.t1) = .ok step.res :=
      oldestLoop_log_res g (yearOfDay now) fuel 0 j step hj2
    have hsorted : List.Sorted byDate step.res.objects :=
      objectModifiedDates_sorted _
        (fun st doc hd => hwf step.t0 step.t1 st doc hd) _ hres
    refine ⟨step, hs, hpos, head?_mem_of_eq _ _ hobj, ?_⟩
    intro x hx
    rcases sorted_head_rel _ hsorted _ hobj x hx with rfl | hrel
    · exact le_refl _
    · exact hrel
  · intro g now fuel h
    have hr := oldestLoop_notFound_stop g (yearOfDay now) fuel 0 h
    simpa using hr

/-- Witness for C3: the first-hit/minimum conjunct at a concrete transport
whose window holds records at days 5 and 9, and the termination conjunct at
the always-empty transport. -/
theorem oldest_search_c3_witness :
    (∃ step, (oldestSearch gHit 20738 10).1.getLast? = some step ∧
      0 < step.res.total ∧ ((5 : Int), "a") ∈ step.res.objects ∧
      ∀ x ∈ step.res.objects, 5 ≤ x.1) ∧
    yearOfDay (20738 : Int) < yearOfDay (epoch2012 +
      (180 * (oldestSearch gZero 20738 100).1.length : Nat)) := by
  constructor
  · have hwf : WellFormedTransport gHit := by
      intro a b st doc h
      simp only [gHit, GetOutcome.response.injEq, Option.some.injEq] at h
      rw [← h.2]
      rfl
    exact oldest_search_c3.2.2.1 gHit 20738 10 5 "a" hwf (by decide)
  · exact oldest_search_c3.2.2.2 gZero 20738 100 (by decide)

/-! ## C4: shape of the mn/cn and index check results -/

/-- The probe result a consistent listing produces for a window (the
explicit payload of `objectModifiedDates` on `listingOutcome`). -/
def listingProbeResult (L : List (Int × String)) (t0 t1 : Option Int) : ProbeResult :=
  let ms := L.filter (fun o => inWindow t0 t1 o.1)
  let entries := ms.map (fun o => (⟨o.1, o.2⟩ : ObjectInfoEntry))
  let objs := entries.map (fun e => (e.dateSysMetadataModified, e.identifier))
  ⟨ms.length, ms.length,
    if ms.length = 1 then objs
    else if 1 < ms.length then List.insertionSort byDate objs
    else [], 200⟩

/-- Against a consistent listing, every probe returns successfully (never
raises), with the explicit payload above. -/
lemma listing_probe_eq (L : List (Int × String)) (t0 t1 : Option Int) :
    objectModifiedDates (listingOutcome L t0 t1) =
      .ok (listingProbeResult L t0 t1) := rfl

lemma listingProbeResult_total (L : List (Int × String)) (t0 t1 : Option Int) :
    (listingProbeResult L t0 t1).total =
      (L.filter (fun o => inWindow t0 t1 o.1)).length := rfl

/-- A consistent-listing probe reporting matches returns a non-empty record
list (so the boundary extraction cannot raise `IndexError`). -/
lemma listingProbeResult_ne_nil (L : List (Int × String)) (t0 t1 : Option Int)
    (h : 0 < (listingProbeResult L t0 t1).total) :
    (listingProbeResult L t0 t1).objects ≠ [] := by
  have h' : 0 < (L.filter (fun o => inWindow t0 t1 o.1)).length := h
  intro hc
  simp only [listingProbeResult] at hc
  by_cases h1 : (L.filter (fun o => inWindow t0 t1 o.1)).length = 1
  · rw [if_pos h1] at hc
    have hl := congrArg List.length hc
    simp only [List.length_map, List.length_nil] at hl
    omega
  · rw [if_neg h1] at hc
    have h2 : 1 < (L.filter (fun o => inWindow t0 t1 o.1)).length := by omega
    rw [if_pos h2] at hc
    have hl := congrArg List.length hc
    rw [List.length_insertionSort] at hl
    simp only [List.length_map, List.length_nil] at hl
    omega

/-- Terminating behavior transfers from the always-empty transport to any
transport whose probes return successfully and whose hits carry records:
whenever the loop on `gZero` does not run out of fuel, the loop on `g`
neither runs out of fuel, nor crashes, nor propagates an exception. -/
lemma newestLoop_safe (g : Option Int → Option Int → GetOutcome)
    (hraise : ∀ a b, ∃ r, objectModifiedDates (g a b) = Except.ok r)
    (hc : ∀ a b r, objectModifiedDates (g a b) = Except.ok r →
      0 < r.total → r.objects ≠ []) :
    ∀ (fuel : Nat) (now : Int) (dOffs dInc : Nat),
      (newestLoop gZero now dOffs dInc fuel).2 ≠ .fuelOut →
      (newestLoop g now dOffs dInc fuel).2 ≠ .fuelOut ∧
      (newestLoop g now dOffs dInc fuel).2 ≠ .crash ∧
      (∀ e, (newestLoop g now dOffs dInc fuel).2 ≠ .raised e) := by
  intro fuel
  induction fuel with
  | zero => intro now dOffs dInc h; exact absurd rfl h
  | succ fuel ih =>
    intro now dOffs dInc h
    by_cases hy : yearOfDay (now - (dOffs : Int)) < 2012
    · rw [newestLoop_step_guard g now dOffs dInc fuel hy]
      exact ⟨by simp, by simp, fun e => by simp⟩
    · obtain ⟨r, hok⟩ := hraise (some (now - (dOffs : Int))) (some now)
      by_cases ht : 0 < r.total
      · rw [newestLoop_step_hit g now dOffs dInc fuel r hy hok ht]
        have hne := hc _ _ r hok ht
        cases hg : r.objects.getLast? with
        | none => exact absurd (List.getLast?_eq_none_iff.mp hg) hne
        | some o =>
          simp only [hitLast, hg]
          exact ⟨by simp, by simp, fun e => by simp⟩
      · rw [newestLoop_step_miss g now dOffs dInc fuel r hy hok ht]
        have hz : objectModifiedDates (gZero (some (now - (dOffs : Int))) (some now))
            = .ok ⟨0, 0, [], 200⟩ := rfl
        rw [newestLoop_step_miss gZero now dOffs dInc fuel ⟨0, 0, [], 200⟩ hy hz
          (by exact lt_irrefl 0)] at h
        exact ih now _ _ h

lemma oldestLoop_safe (g : Option Int → Option Int → GetOutcome)
    (hraise : ∀ a b, ∃ r, objectModifiedDates (g a b) = Except.ok r)
    (hc : ∀ a b r, objectModifiedDates (g a b) = Except.ok r →
      0 < r.total → r.objects ≠ []) :
    ∀ (fuel : Nat) (yMax : Int) (dOffs : Nat),
      (oldestLoop gZero yMax dOffs fuel).2 ≠ .fuelOut →
      (oldestLoop g yMax dOffs fuel).2 ≠ .fuelOut ∧
      (oldestLoop g yMax dOffs fuel).2 ≠ .crash ∧
      (∀ e, (oldestLoop g yMax dOffs fuel).2 ≠ .raised e) := by
  intro fuel
  induction fuel with
  | zero => intro yMax dOffs h; exact absurd rfl h
  | succ fuel ih =>
    intro yMax dOffs h
    by_cases hy : yMax < yearOfDay (epoch2012 + (dOffs : Int))
    · rw [oldestLoop_step_guard g yMax dOffs fuel hy]
      exact ⟨by simp, by simp, fun e => by simp⟩
    · obtain ⟨r, hok⟩ := hraise none (some (epoch2012 + (dOffs : Int)))
      by_cases ht : 0 < r.total
      · rw [oldestLoop_step_hit g yMax dOffs fuel r hy hok ht]
        have hne := hc _ _ r hok ht
        cases hg : r.objects.head? with
        | none => exact absurd (List.head?_eq_none_iff.mp hg) hne
        | some o =>
          simp only [hitFirst, hg]
          exact ⟨by simp, by simp, fun e => by simp⟩
      · rw [oldestLoop_step_miss g yMax dOffs fuel r hy hok ht]
        have hz : objectModifiedDates (gZero none (some (epoch2012 + (dOffs : Int))))
            = .ok ⟨0, 0, [], 200⟩ := rfl
        rw [oldestLoop_step_miss gZero yMax dOffs fuel ⟨0, 0, [], 200⟩ hy hz
          (by exact lt_irrefl 0)] at h
        exact ih yMax _ h

/-- Both searches against a consistent listing at check time 2026-10-12
terminate by their own guards (no fuel exhaustion, no crash, no raised
exception) within 100 iterations. -/
lemma listing_search_safe (L : List (Int × String)) :
    ((oldestSearch (listingOutcome L) (daysFromCivil 2026 10 12) 100).2 ≠ .fuelOut ∧
      (oldestSearch (listingOutcome L) (daysFromCivil 2026 10 12) 100).2 ≠ .crash ∧
      (∀ e, (oldestSearch (listingOutcome L) (daysFromCivil 2026 10 12) 100).2
        ≠ .raised e)) ∧
    ((newestSearch (listingOutcome L) (daysFromCivil 2026 10 12) 100).2 ≠ .fuelOut ∧
      (newestSearch (listingOutcome L) (daysFromCivil 2026 10 12) 100).2 ≠ .crash ∧
      (∀ e, (newestSearch (listingOutcome L) (daysFromCivil 2026 10 12) 100).2
        ≠ .raised e)) := by
  have hraise : ∀ a b, ∃ r, objectModifiedDates (listingOutcome L a b) = Except.ok r :=
    fun a b => ⟨listingProbeResult L a b, listing_probe_eq L a b⟩
  have hc : ∀ a b r, objectModifiedDates (listingOutcome L a b) = Except.ok r →
      0 < r.total → r.objects ≠ [] := by
    intro a b r hok ht
    rw [listing_probe_eq L a b] at hok
    simp only [Except.ok.injEq] at hok
    rw [← hok]
    rw [← hok] at ht
    exact listingProbeResult_ne_nil L a b ht
  exact ⟨oldestLoop_safe (listingOutcome L) hraise hc 100 _ 0 (by decide),
    newestLoop_safe (listingOutcome L) hraise hc 100 _ 2 2 (by decide)⟩

/-- The mn check against a consistent listing, when both searches terminate
without crash or exception, returns status 200, the listing size as count,
and the two search outcomes as `earliest`/`latest`. -/
lemma mnCheckOnListing_eq (L : List (Int × String)) (now : Int) (fuel : Nat)
    (h1 : (oldestSearch (listingOutcome L) now fuel).2 ≠ .fuelOut)
    (h2 : (oldestSearch (listingOutcome L) now fuel).2 ≠ .crash)
    (h5 : ∀ e, (oldestSearch (listingOutcome L) now fuel).2 ≠ .raised e)
    (h3 : (newestSearch (listingOutcome L) now fuel).2 ≠ .fuelOut)
    (h4 : (newestSearch (listingOutcome L) now fuel).2 ≠ .crash)
    (h6 : ∀ e, (newestSearch (listingOutcome L) now fuel).2 ≠ .raised e) :
    mnCheckOnListing L now fuel = .ok ⟨200, "", some L.length,
      outcomeToOption (oldestSearch (listingOutcome L) now fuel).2,
      outcomeToOption (newestSearch (listingOutcome L) now fuel).2⟩ := by
  cases hoS : (oldestSearch (listingOutcome L) now fuel).2 with
  | fuelOut => exact absurd hoS h1
  | crash => exact absurd hoS h2
  | raised e => exact absurd hoS (h5 e)
  | notFound =>
    cases hnS : (newestSearch (listingOutcome L) now fuel).2 with
    | fuelOut => exact absurd hnS h3
    | crash => exact absurd hnS h4
    | raised e => exact absurd hnS (h6 e)
    | notFound =>
      simp [mnCheckOnListing, objectInfoFromMN, doget, listingAttempt, hoS, hnS]
    | found ts pid =>
      simp [mnCheckOnListing, objectInfoFromMN, doget, listingAttempt, hoS, hnS]
  | found ts pid =>
    cases hnS : (newestSearch (listingOutcome L) now fuel).2 with
    | fuelOut => exact absurd hnS h3
    | crash => exact absurd hnS h4
    | raised e => exact absurd hnS (h6 e)
    | notFound =>
      simp [mnCheckOnListing, objectInfoFromMN, doget, listingAttempt, hoS, hnS]
    | found ts2 pid2 =>
      simp [mnCheckOnListing, objectInfoFromMN, doget, listingAttempt, hoS, hnS]

/-- If the very first window probed already has matches (and records), the
oldest loop stops there with a boundary. -/
lemma oldestLoop_first_hit (g : Option Int → Option Int → GetOutcome)
    (yMax : Int) (dOffs fuel : Nat) (r : ProbeResult)
    (hguard : ¬ yMax < yearOfDay (epoch2012 + (dOffs : Int)))
    (hok : objectModifiedDates (g none (some (epoch2012 + (dOffs : Int)))) = .ok r)
    (hhit : 0 < r.total) (hne : r.objects ≠ []) :
    ∃ ts pid, (oldestLoop g yMax dOffs (fuel + 1)).2 = .found ts pid := by
  rw [oldestLoop_step_hit g yMax dOffs fuel r hguard hok hhit]
  cases hg : r.objects.head? with
  | none => exact absurd (List.head?_eq_none_iff.mp hg) hne
  | some o => exact ⟨o.1, o.2, by simp [hitFirst, hg]⟩

/-- If the very first window probed already has matches (and records), the
newest loop stops there with a boundary. -/
lemma newestLoop_first_hit (g : Option Int → Option Int → GetOutcome)
    (now : Int) (dOffs dInc fuel : Nat) (r : ProbeResult)
    (hguard : ¬ yearOfDay (now - (dOffs : Int)) < 2012)
    (hok : objectModifiedDates (g (some (now - (dOffs : Int))) (some now)) = .ok r)
    (hhit : 0 < r.total) (hne : r.objects ≠ []) :
    ∃ ts pid, (newestLoop g now dOffs dInc (fuel + 1)).2 = .found ts pid := by
  rw [newestLoop_step_hit g now dOffs dInc fuel r hguard hok hhit]
  cases hg : r.objects.getLast? with
  | none => exact absurd (List.getLast?_eq_none_iff.mp hg) hne
  | some o => exact ⟨o.1, o.2, by simp [hitLast, hg]⟩

/-- Counterexample for C4: a consistent listing whose only object was
modified 2010-06-01 (before the 2012 floor of the newest search's guard)
yields, at check time 2026-10-12, a status-200 mn result with `count = 1 > 0`
whose `earliest` is present but whose `latest` is absent — `earliest`/`latest`
are not both present whenever `count > 0`. -/
theorem check_shape_counterexample_c4 :
    mnCheckOnListing [(daysFromCivil 2010 6 1, "x")] (daysFromCivil 2026 10 12) 100 =
      .ok ⟨200, "", some 1, some (daysFromCivil 2010 6 1, "x"), none⟩ ∧
    (0 : Nat) < 1 := by
  exact ⟨by decide, by decide⟩

/-- C4 (amended): for the mn/cn check against a consistent listing at check
time 2026-10-12: the result always has status 200 with `count` populated
(the listing size); `earliest`/`latest` are both absent when `count = 0`;
and both are present when `count > 0` *provided* the object dates fall into
the probed ranges — sufficient: some object predates the 2012-01-01 epoch
(first earliest-window) and some object falls within the 2 days before the
check (first latest-window).  Objects lying wholly outside the probed ranges
can leave a boundary absent despite `count > 0`.  For the index check with
parseable responses: `count` is always populated (`numFound`); with
`count = 0` the boundary fields are all absent; with `count > 0` and
non-empty doc pages, both boundaries are present and the status is the
second response's HTTP status. -/
theorem check_result_shape_c4 :
    (∀ L : List (Int × String),
      ∃ res, mnCheckOnListing L (daysFromCivil 2026 10 12) 100 = .ok res ∧
        res.status = 200 ∧ res.count = some L.length) ∧
    (∀ (L : List (Int × String)) (res : MNCheckResult),
      mnCheckOnListing L (daysFromCivil 2026 10 12) 100 = .ok res →
      res.count = some 0 → res.earliest = none ∧ res.latest = none) ∧
    (∀ (L : List (Int × String)) (res : MNCheckResult),
      mnCheckOnListing L (daysFromCivil 2026 10 12) 100 = .ok res →
      (∃ d ∈ L, d.1 < epoch2012) →
      (∃ d ∈ L, daysFromCivil 2026 10 12 - 2 ≤ d.1 ∧
        d.1 < daysFromCivil 2026 10 12) →
      res.earliest.isSome ∧ res.latest.isSome) ∧
    (∀ (q1 q2 : SolrOutcome) (b1 b2 : SolrBody),
      q1.body = .ok b1 → q2.body = .ok b2 →
      (b1.numFound = 0 →
        objectInfoFromIndex q1 q2 =
          .ok { emptyIndexResult with status := q2.status, message := q2.reason }) ∧
      (0 < b1.numFound → b1.docs ≠ [] → b2.docs ≠ [] →
        ∃ res, objectInfoFromIndex q1 q2 = .ok res ∧ res.status = q2.status ∧
          res.count = b1.numFound ∧ res.earliest.isSome ∧ res.latest.isSome)) := by
  refine ⟨?_, ?_, ?_, ?_⟩
  · intro L
    obtain ⟨⟨h1, h2, h5⟩, h3, h4, h6⟩ := listing_search_safe L
    exact ⟨_, mnCheckOnListing_eq L _ 100 h1 h2 h5 h3 h4 h6, rfl, rfl⟩
  · intro L res hres hcount
    obtain ⟨⟨h1, h2, h5⟩, h3, h4, h6⟩ := listing_search_safe L
    rw [mnCheckOnListing_eq L _ 100 h1 h2 h5 h3 h4 h6] at hres
    simp only [Except.ok.injEq] at hres
    subst hres
    simp only [Option.some.injEq] at hcount
    have hL : L = [] := List.length_eq_zero.mp hcount
    subst hL
    exact ⟨by decide, by decide⟩
  · intro L res hres hold hnew
    obtain ⟨⟨h1, h2, h5⟩, h3, h4, h6⟩ := listing_search_safe L
    rw [mnCheckOnListing_eq L _ 100 h1 h2 h5 h3 h4 h6] at hres
    simp only [Except.ok.injEq] at hres
    subst hres
    constructor
    · obtain ⟨d, hdL, hdlt⟩ := hold
      have hwin : inWindow none (some (epoch2012 + ((0 : Nat) : Int))) d.1 = true := by
        simp [inWindow]
        omega
      have hok := listing_probe_eq L none (some (epoch2012 + ((0 : Nat) : Int)))
      have hhit : 0 < (listingProbeResult L none
          (some (epoch2012 + ((0 : Nat) : Int)))).total := by
        rw [listingProbeResult_total]
        exact List.length_pos.mpr
          (List.ne_nil_of_mem (List.mem_filter.mpr ⟨hdL, hwin⟩))
      have hne := listingProbeResult_ne_nil L none
        (some (epoch2012 + ((0 : Nat) : Int))) hhit
      obtain ⟨ts, pid, hfound⟩ := oldestLoop_first_hit (listingOutcome L)
        (yearOfDay (daysFromCivil 2026 10 12)) 0 99 _ (by decide) hok hhit hne
      have h100 : (oldestSearch (listingOutcome L)
          (daysFromCivil 2026 10 12) 100).2 = .found ts pid := hfound
      show (outcomeToOption (oldestSearch (listingOutcome L)
        (daysFromCivil 2026 10 12) 100).2).isSome = true
      rw [h100]
      rfl
    · obtain ⟨d, hdL, hd1, hd2⟩ := hnew
      have hwin : inWindow (some (daysFromCivil 2026 10 12 - ((2 : Nat) : Int)))
          (some (daysFromCivil 2026 10 12)) d.1 = true := by
        simp [inWindow]
        constructor
        · omega
        · omega
      have hok := listing_probe_eq L
        (some (daysFromCivil 2026 10 12 - ((2 : Nat) : Int)))
        (some (daysFromCivil 2026 10 12))
      have hhit : 0 < (listingProbeResult L
          (some (daysFromCivil 2026 10 12 - ((2 : Nat) : Int)))
          (some (daysFromCivil 2026 10 12))).total := by
        rw [listingProbeResult_total]
        exact List.length_pos.mpr
          (List.ne_nil_of_mem (List.mem_filter.mpr ⟨hdL, hwin⟩))
      have hne := listingProbeResult_ne_nil L
        (some (daysFromCivil 2026 10 12 - ((2 : Nat) : Int)))
        (some (daysFromCivil 2026 10 12)) hhit
      obtain ⟨ts, pid, hfound⟩ := newestLoop_first_hit (listingOutcome L)
        (daysFromCivil 2026 10 12) 2 2 99 _ (by decide) hok hhit hne
      have h100 : (newestSearch (listingOutcome L)
          (daysFromCivil 2026 10 12) 100).2 = .found ts pid := hfound
      show (outcomeToOption (newestSearch (listingOutcome L)
        (daysFromCivil 2026 10 12) 100).2).isSome = true
      rw [h100]
      rfl
  · intro q1 q2 b1 b2 hb1 hb2
    constructor
    · intro h0
      simp [objectInfoFromIndex, hb1, hb2, h0]
    · intro hpos hd1 hd2
      cases hc1 : b1.docs with
      | nil => exact absurd hc1 hd1
      | cons d1 rest1 =>
        cases hc2 : b2.docs with
        | nil => exact absurd hc2 hd2
        | cons d2 rest2 =>
          refine ⟨⟨q2.status, q2.reason, b1.numFound,
            some d1.id, d1.series_id, some d1.dateModified, some d1.dateUploaded,
            some d2.id, d2.series_id, some d2.dateModified, some d2.dateUploaded⟩,
            ?_, rfl, rfl, rfl, rfl⟩
          simp [objectInfoFromIndex, hb1, hb2, hc1, hc2, if_pos hpos,
            emptyIndexResult]

/-- Witness for C4: a listing with one pre-2012 object and one object from
the day before the check has both boundaries present; a concrete index
response pair with three hits behaves likewise. -/
theorem check_result_shape_c4_witness :
    (∃ res, mnCheckOnListing [((14000 : Int), "a"), ((20737 : Int), "b")]
        (daysFromCivil 2026 10 12) 100 = .ok res ∧
      res.earliest.isSome ∧ res.latest.isSome) ∧
    (∃ res, objectInfoFromIndex
        ⟨200, "OK", .ok ⟨3, [⟨"p1", none, "2020-01-01", "2020-01-01"⟩]⟩⟩
        ⟨200, "OK", .ok ⟨3, [⟨"p2", none, "2024-01-01", "2024-01-01"⟩]⟩⟩ = .ok res ∧
      res.status = 200 ∧ res.count = 3 ∧
      res.earliest.isSome ∧ res.latest.isSome) := by
  constructor
  · obtain ⟨res, hres, _, _⟩ :=
      check_result_shape_c4.1 [((14000 : Int), "a"), ((20737 : Int), "b")]
    refine ⟨res, hres, ?_⟩
    exact check_result_shape_c4.2.2.1 _ res hres
      ⟨((14000 : Int), "a"), by decide, by decide⟩
      ⟨((20737 : Int), "b"), by decide, by decide, by decide⟩
  · obtain ⟨res, hres, hst, hcnt, he, hl⟩ :=
      (check_result_shape_c4.2.2.2
        ⟨200, "OK", .ok ⟨3, [⟨"p1", none, "2020-01-01", "2020-01-01"⟩]⟩⟩
        ⟨200, "OK", .ok ⟨3, [⟨"p2", none, "2024-01-01", "2024-01-01"⟩]⟩⟩
        ⟨3, [⟨"p1", none, "2020-01-01", "2020-01-01"⟩]⟩
        ⟨3, [⟨"p2", none, "2024-01-01", "2024-01-01"⟩]⟩ rfl rfl).2
        (by decide) (by decide) (by decide)
    exact ⟨res, hres, hst, hcnt, he, hl⟩

end MNStat
